import Mathlib

/-!
# Flare: verification of the risk-assessment core

A shallow embedding of the Flare risk-assessment pipeline (shell-command
parser, content analyzers, risk scorer, vulnerability-oracle cache) together
with theorems settling the specification claims.

Conventions of the embedding:
* TypeScript strings become `String` / `List Char`; machine integers are `Nat`.
* The TS optional field `partial?: bool` of `AnalyzerResult` is modelled by the
  field `degradedFlag : Option Bool` (the TS name collides with a Lean keyword);
  `Option.none` models the field being absent from the object.
* Fallible code (`parseCommand`, which throws on over-long input) returns `Except`.
* Regular-expression tests from the source are modelled by executable scanners
  over `List Char` implementing the same match semantics on the pattern shapes
  the source actually uses.
-/

namespace Flare

/-- `RiskLevel` from `types.ts`: totally ordered enum none < low < medium < high < critical. -/
inductive RiskLevel where
  | none
  | low
  | medium
  | high
  | critical
  deriving DecidableEq, Repr

/-- `Action` from `types.ts`. -/
inductive Action where
  | run
  | warn
  | ask
  deriving DecidableEq, Repr

/-- `ActionPolicy`: a total map from `RiskLevel` to `Action`. -/
structure ActionPolicy where
  onNone : Action
  onLow : Action
  onMedium : Action
  onHigh : Action
  onCritical : Action
  deriving DecidableEq, Repr

/-- `actionPolicy[riskLevel]` (index the policy record by a risk level). -/
def policyAt (p : ActionPolicy) : RiskLevel → Action
  | RiskLevel.none => p.onNone
  | RiskLevel.low => p.onLow
  | RiskLevel.medium => p.onMedium
  | RiskLevel.high => p.onHigh
  | RiskLevel.critical => p.onCritical

/-- `DEFAULT_ACTION_POLICY` from `scorer.ts`. -/
def DEFAULT_ACTION_POLICY : ActionPolicy :=
  { onNone := Action.run, onLow := Action.run, onMedium := Action.warn,
    onHigh := Action.ask, onCritical := Action.ask }

/-- `severityIndex` from `scorer.ts`: `SEVERITY_ORDER.indexOf(level)` with
`SEVERITY_ORDER = ["none","low","medium","high","critical"]`. -/
def severityIndex : RiskLevel → Nat
  | RiskLevel.none => 0
  | RiskLevel.low => 1
  | RiskLevel.medium => 2
  | RiskLevel.high => 3
  | RiskLevel.critical => 4

/-- `Finding` from `types.ts` (the fields the core reads). -/
structure Finding where
  category : String
  severity : RiskLevel
  description : String
  deriving DecidableEq, Repr

/-- `Redirect` from `types.ts`: `type` is the matched operator text, ">" or ">>". -/
structure Redirect where
  type : String
  target : String
  deriving DecidableEq, Repr

/-- `ParsedCommand` from `types.ts` (a parsed command segment). -/
structure ParsedCommand where
  verb : String
  args : List String
  operator : Option String
  redirects : List Redirect
  rawSegment : String
  position : Nat
  deriving DecidableEq, Repr

/-- `AnalyzerResult` from `types.ts`. `degradedFlag` models the optional TS
field `partial?: bool` (`Option.none` = field absent). -/
structure AnalyzerResult where
  findings : List Finding
  degradedFlag : Option Bool := Option.none
  deriving DecidableEq, Repr

/-- `RiskAssessment` from `types.ts`, restricted to the fields the claims are
about (`summary` and `recommendation`, pure derived strings, are not modelled).
`degradedFlag` models the optional output field `partial?: true`. -/
structure RiskAssessment where
  risk_level : RiskLevel
  action : Action
  details : List Finding
  degradedFlag : Option Bool
  deriving DecidableEq, Repr

/-! ## String primitives

The TypeScript code works on JS strings; the embedding works on `List Char`.
The helpers below model the JS string operations used by the source
(`startsWith`, `includes`, `trim`, `toLowerCase`, `slice`, `join`).  They are
written by structural recursion so that concrete inputs evaluate inside the
kernel. -/

/-- The apostrophe character (JS `"'"`). -/
def squote : Char := Char.ofNat 39

/-- The backtick character. -/
def btick : Char := Char.ofNat 96

/-- JS `s.startsWith(pre)`. -/
def strStartsWith (s pre : String) : Bool :=
  pre.toList.isPrefixOf s.toList

/-- JS `s.endsWith(suf)` (also regex `x$` anchored searches). -/
def strEndsWith (s suf : String) : Bool :=
  suf.toList.isSuffixOf s.toList

/-- Boolean infix test on character lists. -/
def listInfix (sub s : List Char) : Bool :=
  s.tails.any (fun t => sub.isPrefixOf t)

/-- JS `s.includes(sub)` (also an unanchored regex literal search). -/
def strContains (s sub : String) : Bool :=
  listInfix sub.toList s.toList

/-- JS whitespace class used by `trim` and regex `\s`. -/
def isSpaceJS (c : Char) : Bool :=
  c = ' ' ∨ c = '\t' ∨ c = '\n' ∨ c = '\r'

/-- JS `s.trim()`. -/
def trimJS (s : String) : String :=
  String.mk (((s.toList.dropWhile isSpaceJS).reverse.dropWhile isSpaceJS).reverse)

/-- JS `s.toLowerCase()` (ASCII; the source only lower-cases command verbs). -/
def strToLower (s : String) : String :=
  String.mk (s.toList.map Char.toLower)

/-- JS `s.slice(n)` / `String.drop`. -/
def strDrop (s : String) (n : Nat) : String :=
  String.mk (s.toList.drop n)

/-- JS `s.slice(0, n)` / `String.take`. -/
def strTake (s : String) (n : Nat) : String :=
  String.mk (s.toList.take n)

/-- JS `array.join(sep)`. -/
def joinSep (sep : String) : List String → String
  | [] => ""
  | [x] => x
  | x :: xs => x ++ sep ++ joinSep sep xs

/-- Splitting a character list on a separator character (JS `split`). -/
def splitOnChar (sep : Char) : List Char → List (List Char)
  | [] => [[]]
  | c :: rest =>
    let r := splitOnChar sep rest
    if c = sep then [] :: r
    else
      match r with
      | h :: t => (c :: h) :: t
      | [] => [[c]]

/-- JS string length (number of characters). -/
def strLen (s : String) : Nat := s.toList.length

/-- The regex word-character class `\w` = `[A-Za-z0-9_]`. -/
def wordChar (c : Char) : Bool := c.isAlphanum ∨ c = '_'

/-! ## Parser (`parser.ts`) -/

/-- Models `os.homedir()`: the user's home directory, fixed for the process.
None of the verified properties depend on its value. -/
def homeDirectory : String := "/home/user"

/-- `expandTilde` from `parser.ts`. -/
def expandTilde (path : String) : String :=
  if path = "~" then homeDirectory
  else if strStartsWith path "~/" then homeDirectory ++ strDrop path 1
  else path

/-- The character-by-character loop of `splitByOperator` from `parser.ts`.
State: remaining input, previous raw character, `inQuote`, `quoteChar`, and the
current segment accumulated in reverse.  The loop consumes at least one
character per iteration; the fuel parameter (any value above the input length)
only makes the recursion structural. -/
def splitLoop : Nat → List Char → Option Char → Bool → Char → List Char →
    List (String × Option String)
  | 0, _, _, _, _, _ => []
  | _ + 1, [], _, _, _, current =>
    if trimJS (String.mk current.reverse) ≠ "" then
      [(String.mk current.reverse, Option.none)]
    else []
  | fuel + 1, ch :: rest, prev, inQuote, quoteChar, current =>
    if ch = '\\' ∧ ¬inQuote then
      -- escape: `current += ch + (next ?? ""); i++`
      match rest with
      | [] => splitLoop fuel [] (some ch) inQuote quoteChar (ch :: current)
      | n :: rest2 => splitLoop fuel rest2 (some n) inQuote quoteChar (n :: ch :: current)
    else if (ch = '"' ∨ ch = squote) ∧ prev ≠ some '\\' then
      if ¬inQuote then splitLoop fuel rest (some ch) true ch (ch :: current)
      else if ch = quoteChar then splitLoop fuel rest (some ch) false quoteChar (ch :: current)
      else splitLoop fuel rest (some ch) inQuote quoteChar (ch :: current)
    else if inQuote then
      splitLoop fuel rest (some ch) inQuote quoteChar (ch :: current)
    else
      match rest with
      | n :: rest2 =>
        if (ch = '&' ∧ n = '&') ∨ (ch = '|' ∧ n = '|') then
          (String.mk current.reverse, some (String.mk [ch, n])) ::
            splitLoop fuel rest2 (some n) inQuote quoteChar []
        else if ch = '|' ∨ ch = ';' then
          (String.mk current.reverse, some (String.mk [ch])) ::
            splitLoop fuel rest (some ch) inQuote quoteChar []
        else splitLoop fuel rest (some ch) inQuote quoteChar (ch :: current)
      | [] =>
        if ch = '|' ∨ ch = ';' then
          (String.mk current.reverse, some (String.mk [ch])) ::
            splitLoop fuel [] (some ch) inQuote quoteChar []
        else splitLoop fuel [] (some ch) inQuote quoteChar (ch :: current)

/-- `splitByOperator` from `parser.ts`. -/
def splitByOperator (cmd : String) : List (String × Option String) :=
  splitLoop (strLen cmd + 2) cmd.toList Option.none false ' ' []

/-- The character-by-character loop of `tokenize` from `parser.ts`.
State: remaining input, previous raw character, `inQuote`, `quoteChar`, current
token in reverse, finished tokens in reverse order.  Fuel as in `splitLoop`. -/
def tokenizeLoop : Nat → List Char → Option Char → Bool → Char → List Char →
    List String → List String
  | 0, _, _, _, _, _, _ => []
  | _ + 1, [], _, _, _, current, tokens =>
    (if current ≠ [] then String.mk current.reverse :: tokens else tokens).reverse
  | fuel + 1, ch :: rest, prev, inQuote, quoteChar, current, tokens =>
    if ch = '\\' ∧ ¬inQuote then
      -- escape: `current += segment[i+1] ?? ""; i++` (the backslash is dropped)
      match rest with
      | [] => tokenizeLoop fuel [] (some ch) inQuote quoteChar current tokens
      | n :: rest2 => tokenizeLoop fuel rest2 (some n) inQuote quoteChar (n :: current) tokens
    else if (ch = '"' ∨ ch = squote) ∧ prev ≠ some '\\' then
      if ¬inQuote then tokenizeLoop fuel rest (some ch) true ch current tokens
      else if ch = quoteChar then tokenizeLoop fuel rest (some ch) false quoteChar current tokens
      else tokenizeLoop fuel rest (some ch) inQuote quoteChar (ch :: current) tokens
    else if inQuote then
      tokenizeLoop fuel rest (some ch) inQuote quoteChar (ch :: current) tokens
    else if ch = ' ' ∨ ch = '\t' then
      if current ≠ [] then
        tokenizeLoop fuel rest (some ch) inQuote quoteChar [] (String.mk current.reverse :: tokens)
      else tokenizeLoop fuel rest (some ch) inQuote quoteChar [] tokens
    else tokenizeLoop fuel rest (some ch) inQuote quoteChar (ch :: current) tokens

/-- `tokenize` from `parser.ts`. -/
def tokenize (segment : String) : List String :=
  tokenizeLoop (strLen segment + 2) segment.toList Option.none false ' ' [] []

/-- Matches `\s*(\S+)` used by the redirect regex: optional whitespace then a
non-empty run of non-whitespace characters; returns the run and the remainder. -/
def matchTarget (s : List Char) : Option (List Char × List Char) :=
  let r := s.dropWhile isSpaceJS
  let t := r.takeWhile (fun c => ¬ isSpaceJS c)
  if t = [] then Option.none else some (t, r.drop t.length)

/-- One pass of the redirect regex `/(>>|>)\s*(\S+)/g` over a segment, giving
both the matches (for `extractRedirects`) and the unmatched text (for
`removeRedirects`, which replaces every match with the empty string).  The
first component of a match is the operator text (">>" or ">"), honouring the
regex alternation order: ">>" is tried first and the engine falls back to ">"
(whose `\S+` may then grab the second ">").  Fuel-based so that concrete inputs
reduce; `fuel = length + 1` always suffices since every step consumes a
character. -/
def redirScanF : Nat → List Char → List (String × String) × List Char
  | 0, s => ([], s)
  | _ + 1, [] => ([], [])
  | fuel + 1, '>' :: rest =>
    match rest with
    | '>' :: rest2 =>
      (match matchTarget rest2 with
      | some (t, r) =>
        let p := redirScanF fuel r
        ((">>", String.mk t) :: p.1, p.2)
      | Option.none =>
        match matchTarget rest with
        | some (t, r) =>
          let p := redirScanF fuel r
          ((">", String.mk t) :: p.1, p.2)
        | Option.none =>
          let p := redirScanF fuel rest
          (p.1, '>' :: p.2))
    | _ =>
      match matchTarget rest with
      | some (t, r) =>
        let p := redirScanF fuel r
        ((">", String.mk t) :: p.1, p.2)
      | Option.none =>
        let p := redirScanF fuel rest
        (p.1, '>' :: p.2)
  | fuel + 1, c :: rest =>
    let p := redirScanF fuel rest
    (p.1, c :: p.2)

/-- `extractRedirects` from `parser.ts`. -/
def extractRedirects (segment : String) : List Redirect :=
  ((redirScanF (strLen segment + 1) segment.toList).1).map
    (fun m => { type := m.1, target := expandTilde m.2 })

/-- `removeRedirects` from `parser.ts`. -/
def removeRedirects (segment : String) : String :=
  trimJS (String.mk (redirScanF (strLen segment + 1) segment.toList).2)

/-- The balanced-parenthesis walk shared by `extractBalancedSubshells` and
`extractProcessSubstitutions`: given the text after an opening parenthesis and
the current depth, returns the contents up to the matching close and the text
after it, or `none` when unbalanced. -/
def scanClose : List Char → Nat → Option (List Char × List Char)
  | [], _ => Option.none
  | c :: cs, depth =>
    if c = ')' then
      if depth = 1 then some ([], cs)
      else
        match scanClose cs (depth - 1) with
        | some (a, r) => some (c :: a, r)
        | Option.none => Option.none
    else if c = '(' then
      match scanClose cs (depth + 1) with
      | some (a, r) => some (c :: a, r)
      | Option.none => Option.none
    else
      match scanClose cs depth with
      | some (a, r) => some (c :: a, r)
      | Option.none => Option.none

/-- `extractBalancedSubshells` from `parser.ts`: find `$(...)` with balanced
parenthesis counting, recursing into each extracted body.  Discovery order
matches the source: a body is pushed before its nested bodies, and scanning
resumes after the closing parenthesis.  Fuel bounds the recursion depth; any
value above the input length suffices. -/
def extractBalancedSubshells : Nat → List Char → List (List Char)
  | 0, _ => []
  | _ + 1, [] => []
  | fuel + 1, '$' :: '(' :: rest =>
    (match scanClose rest 1 with
    | some (inner, after) =>
      inner :: (extractBalancedSubshells fuel inner ++ extractBalancedSubshells fuel after)
    | Option.none => extractBalancedSubshells fuel ('(' :: rest))
  | fuel + 1, _ :: rest => extractBalancedSubshells fuel rest

/-- `extractProcessSubstitutions` from `parser.ts`: find `<(...)` and `>(...)`
with balanced parentheses (no recursion into the bodies). -/
def extractProcSubs : Nat → List Char → List (List Char)
  | 0, _ => []
  | _ + 1, [] => []
  | fuel + 1, c :: rest =>
    if c = '<' ∨ c = '>' then
      match rest with
      | '(' :: rest2 =>
        (match scanClose rest2 1 with
        | some (inner, after) => inner :: extractProcSubs fuel after
        | Option.none => extractProcSubs fuel rest)
      | _ => extractProcSubs fuel rest
    else extractProcSubs fuel rest

/-- The backtick pass of `expandSubshells`: the global regex `` /`([^`]+)`/g ``
(non-empty contents between a backtick pair; scanning resumes after the
closing backtick). -/
def extractBackticks : Nat → List Char → List (List Char)
  | 0, _ => []
  | _ + 1, [] => []
  | fuel + 1, c :: rest =>
    if c = btick ∧ rest.takeWhile (fun x => x ≠ btick) ≠ [] ∧
        rest.dropWhile (fun x => x ≠ btick) ≠ [] then
      rest.takeWhile (fun x => x ≠ btick) ::
        extractBackticks fuel (rest.dropWhile (fun x => x ≠ btick)).tail
    else extractBackticks fuel rest

/-! ### Heredoc extraction

`extractHeredocBodies` in `parser.ts` is driven by the global regex

  `\b(\w+)\s+<<-?\s*['"]?(\w+)['"]?\s*\n([\s\S]*?)\n\s*\2\b`

The functions below implement that regex's match semantics directly:
greedy `\w+`/`\s+`/`\s*` runs, a lazy body, backreference to the delimiter,
and word boundaries, with backtracking over the newline chosen by the
`\s*\n` that precedes the body. -/

/-- Checks the heredoc terminator `\n\s*DELIM\b` at the head of the input and
returns the text after the delimiter on success. -/
def termAt (delim : List Char) : List Char → Option (List Char)
  | '\n' :: r =>
    let r2 := r.dropWhile isSpaceJS
    if delim.isPrefixOf r2 then
      match r2.drop delim.length with
      | [] => some []
      | c :: rest => if wordChar c then Option.none else some (c :: rest)
    else Option.none
  | _ => Option.none

/-- The lazy body `([\s\S]*?)` followed by the terminator: the shortest prefix
of the input after which `\n\s*DELIM\b` matches.  Returns the body and the
text after the whole match. -/
def findTerm (delim : List Char) : List Char → Option (List Char × List Char)
  | [] => Option.none
  | c :: rest =>
    match termAt delim (c :: rest) with
    | some after => some ([], after)
    | Option.none =>
      match findTerm delim rest with
      | some (body, after) => some (c :: body, after)
      | Option.none => Option.none

/-- Descending positions of `'\n'` within the whitespace run, i.e. the
candidate splits for the greedy `\s*` followed by the mandatory `\n` before the
body (the regex engine tries the longest `\s*` first and backtracks). -/
def newlineSplits (run : List Char) : List Nat :=
  ((List.range run.length).filter (fun i => run.get? i = some '\n')).reverse

/-- Tries each candidate newline split in backtracking order; the body starts
right after the chosen newline. -/
def tryBodies (delim : List Char) (r8 : List Char) : List Nat → Option (List Char × List Char)
  | [] => Option.none
  | m :: ms =>
    match findTerm delim (r8.drop (m + 1)) with
    | some (body, after) => some (body, after)
    | Option.none => tryBodies delim r8 ms

/-- Attempts the full heredoc pattern starting at the head of `s` (the caller
has already established the `\b` before the verb).  Returns verb, body and the
text after the match. -/
def heredocAt (s : List Char) : Option (String × String × List Char) :=
  let verb := s.takeWhile wordChar
  if verb = [] then Option.none else
  let r1 := s.drop verb.length
  let ws := r1.takeWhile isSpaceJS
  if ws = [] then Option.none else
  match r1.drop ws.length with
  | '<' :: '<' :: r3 =>
    let r4 := match r3 with
      | '-' :: t => t
      | _ => r3
    let r5 := r4.dropWhile isSpaceJS
    let r6 := match r5 with
      | c :: t => if c = '"' ∨ c = squote then t else r5
      | [] => r5
    let delim := r6.takeWhile wordChar
    if delim = [] then Option.none else
    let r7 := r6.drop delim.length
    let r8 := match r7 with
      | c :: t => if c = '"' ∨ c = squote then t else r7
      | [] => r7
    let run := r8.takeWhile isSpaceJS
    match tryBodies delim r8 (newlineSplits run) with
    | some (body, after) => some (String.mk verb, String.mk body, after)
    | Option.none => Option.none
  | _ => Option.none

/-- The global scan of the heredoc regex: attempt a match at every position
with a word boundary before a word character, resuming after each match (the
character before the resume point is the delimiter's last character, which is a
word character).  One fuel unit per scanned position. -/
def heredocScan : Nat → Bool → List Char → List (String × String)
  | 0, _, _ => []
  | _ + 1, _, [] => []
  | fuel + 1, prevWord, c :: rest =>
    if ¬prevWord ∧ wordChar c then
      match heredocAt (c :: rest) with
      | some (verb, body, after) => (verb, body) :: heredocScan fuel true after
      | Option.none => heredocScan fuel (wordChar c) rest
    else heredocScan fuel (wordChar c) rest

/-- All `(verb, body)` matches of the heredoc regex over a command string. -/
def heredocMatches (command : String) : List (String × String) :=
  heredocScan (strLen command + 1) false command.toList

/-- `INTERPRETER_VERBS` from `parser.ts`. -/
def INTERPRETER_VERBS : List String :=
  ["bash", "sh", "zsh", "dash", "python", "python3", "node", "ruby", "perl"]

/-- `extractHeredocBodies` from `parser.ts`: keep only bodies whose verb is an
interpreter and whose trimmed body is non-empty. -/
def extractHeredocBodies (command : String) : List String :=
  (heredocMatches command).filterMap (fun vb =>
    if INTERPRETER_VERBS.contains vb.1 ∧ trimJS vb.2 ≠ "" then some (trimJS vb.2)
    else Option.none)

/-- `expandSubshells` from `parser.ts`: collect `$(...)`, backtick, process
substitution and interpreter-heredoc bodies and append them to the command
joined by " ; ". -/
def expandSubshells (command : String) : String :=
  let subshells : List String :=
    (extractBalancedSubshells (strLen command + 1) command.toList).map String.mk
      ++ (extractBackticks (strLen command + 1) command.toList).map String.mk
      ++ (extractProcSubs (strLen command + 1) command.toList).map String.mk
      ++ extractHeredocBodies command
  if subshells.isEmpty then command
  else command ++ " ; " ++ joinSep " ; " subshells

/-- `MAX_COMMAND_LENGTH` from `parser.ts`. -/
def MAX_COMMAND_LENGTH : Nat := 10000

/-- The segment-building loop of `parseCommand`: skip blank segments, extract
redirects, tokenize, and assign `position` as the running index of emitted
segments. -/
def buildSegments : List (String × Option String) → Nat → List ParsedCommand
  | [], _ => []
  | (segment, operator) :: rest, pos =>
    let trimmed := trimJS segment
    if trimmed = "" then buildSegments rest pos
    else
      let tokens := tokenize (removeRedirects trimmed)
      { verb := tokens.headD ""
        args := (tokens.drop 1).map expandTilde
        operator := operator
        redirects := extractRedirects trimmed
        rawSegment := trimmed
        position := pos } :: buildSegments rest (pos + 1)

/-- `parseCommand` from `parser.ts` (the current version, with the length cap,
subshell expansion and heredoc lifting).  The TS `throw` is modelled by
`Except.error`. -/
def parseCommand (command : String) : Except String (List ParsedCommand) :=
  if MAX_COMMAND_LENGTH < strLen command then
    Except.error ("Command too long (" ++ toString (strLen command) ++ " chars, max " ++
      toString MAX_COMMAND_LENGTH ++ ")")
  else
    Except.ok (buildSegments (splitByOperator (expandSubshells command)) 0)

/-- C5: `parseCommand` raises an error if and only if the input is longer than
10,000 characters; every input at or below the cap — including unmatched
quotes and unmatched parentheses — yields a segment list without throwing. -/
theorem claim_C5_parse_error_iff_length :
    (∀ command : String,
      ((∃ segs, parseCommand command = Except.ok segs) ↔
        strLen command ≤ MAX_COMMAND_LENGTH) ∧
      ((∃ e, parseCommand command = Except.error e) ↔
        MAX_COMMAND_LENGTH < strLen command)) ∧
    (∃ segs, parseCommand "echo \"unclosed" = Except.ok segs) ∧
    (∃ segs, parseCommand "echo $(foo" = Except.ok segs) := by
  refine ⟨fun command => ?_, ⟨_, rfl⟩, ⟨_, rfl⟩⟩
  unfold parseCommand
  by_cases h : MAX_COMMAND_LENGTH < strLen command
  · simp only [if_pos h]
    constructor
    · constructor
      · rintro ⟨segs, hs⟩
        cases hs
      · intro hle
        omega
    · constructor
      · intro _
        exact h
      · intro _
        exact ⟨_, rfl⟩
  · simp only [if_neg h]
    constructor
    · constructor
      · intro _
        omega
      · intro _
        exact ⟨_, rfl⟩
    · constructor
      · rintro ⟨e, he⟩
        cases he
      · intro hlt
        exact absurd hlt h

/-- C7: during subshell lifting, a heredoc body is extracted and appended only
when the heredoc's verb is in the fixed interpreter set; concretely the body of
`cat <<EOF` is never lifted (no `rm` segment appears), while the same heredoc
under `bash` is lifted. -/
theorem claim_C7_heredoc_interpreter_only :
    (∀ (command body : String), body ∈ extractHeredocBodies command →
      ∃ vb ∈ heredocMatches command,
        INTERPRETER_VERBS.contains vb.1 = true ∧ body = trimJS vb.2) ∧
    extractHeredocBodies "cat <<EOF\nrm -rf /\nEOF" = [] ∧
    (parseCommand "cat <<EOF\nrm -rf /\nEOF").map (fun l => l.map (fun s => s.verb)) =
      Except.ok ["cat"] ∧
    extractHeredocBodies "bash <<EOF\nrm -rf /\nEOF" = ["rm -rf /"] ∧
    (parseCommand "bash <<EOF\nrm -rf /\nEOF").map (fun l => l.map (fun s => s.verb)) =
      Except.ok ["bash", "rm"] := by
  refine ⟨fun command body hb => ?_, by decide, by rfl, by decide, by rfl⟩
  rw [extractHeredocBodies, List.mem_filterMap] at hb
  obtain ⟨vb, hvb, hf⟩ := hb
  by_cases hc : INTERPRETER_VERBS.contains vb.1 = true ∧ trimJS vb.2 ≠ ""
  · rw [if_pos hc] at hf
    exact ⟨vb, hvb, hc.1, (Option.some.injEq _ _ ▸ hf).symm⟩
  · rw [if_neg hc] at hf
    cases hf

/-- C7 witness: the lifted body of the `bash` heredoc traced back to its match. -/
theorem claim_C7_heredoc_interpreter_only_witness :
    ∃ vb ∈ heredocMatches "bash <<EOF\nrm -rf /\nEOF",
      INTERPRETER_VERBS.contains vb.1 = true ∧ "rm -rf /" = trimJS vb.2 :=
  claim_C7_heredoc_interpreter_only.1 "bash <<EOF\nrm -rf /\nEOF" "rm -rf /" (by decide)

/-! ## Regex search primitives for the analyzers

The analyzers test raw segments against a handful of regexes built from word
boundaries (`\b`), literal words, `\s+` runs and `.*` gaps.  The helpers below
implement exactly those combinators over a (lower-cased, for `/i` patterns)
character list. -/

/-- Lower-cased character list of a string (for case-insensitive regexes). -/
def lowList (s : String) : List Char := s.toList.map Char.toLower

/-- Whether the character at index `i` exists and is a word character. -/
def isWordIdx (l : List Char) (i : Nat) : Bool :=
  match l.get? i with
  | some c => wordChar c
  | Option.none => false

/-- Literal match of `w` at index `i`. -/
def litAt (l : List Char) (i : Nat) (w : List Char) : Bool :=
  w.isPrefixOf (l.drop i)

/-- A `\b` before index `i`, for a needle starting with a word character. -/
def boundaryBefore (l : List Char) (i : Nat) : Bool :=
  i = 0 ∨ ¬ isWordIdx l (i - 1)

/-- Match of `\bw\b` at index `i` (needle made of word characters). -/
def wordAtWithBounds (l : List Char) (i : Nat) (w : List Char) : Bool :=
  boundaryBefore l i ∧ litAt l i w ∧ ¬ isWordIdx l (i + w.length)

/-- Search `\bw\b` anywhere (regex `.test` for `/\bw\b/`). -/
def wordSearch (l : List Char) (w : List Char) : Bool :=
  (List.range (l.length + 1)).any (fun i => wordAtWithBounds l i w)

/-- No newline among the characters in `[a, b)` (the regex `.` does not match
newlines). -/
def noNewlineBetween (l : List Char) (a b : Nat) : Bool :=
  ((l.drop a).take (b - a)).all (fun c => c ≠ '\n')

/-- Search for `\bw1\s+(w2a|w2b|...)\b`: the `\s+` run is maximal since every
alternative starts with a word character. -/
def sqlWordPair (l : List Char) (w1 : List Char) (ws : List (List Char)) : Bool :=
  (List.range (l.length + 1)).any (fun i =>
    boundaryBefore l i ∧ litAt l i w1 ∧
    (let j := i + w1.length
     let run := (l.drop j).takeWhile isSpaceJS
     1 ≤ run.length ∧
     ws.any (fun w2 => litAt l (j + run.length) w2 ∧ ¬ isWordIdx l (j + run.length + w2.length))))

/-- Search for `\bDELETE\s+FROM\b.*\bWHERE\b.*=.*\bOR\b` (case-insensitively;
the caller passes a lower-cased list). -/
def sqlDeleteMatch (l : List Char) : Bool :=
  (List.range (l.length + 1)).any (fun i =>
    boundaryBefore l i ∧ litAt l i "delete".toList ∧
    (let j := i + 6
     let run := (l.drop j).takeWhile isSpaceJS
     1 ≤ run.length ∧ litAt l (j + run.length) "from".toList ∧
     ¬ isWordIdx l (j + run.length + 4) ∧
     (let e := j + run.length + 4;
      (List.range (l.length + 1)).any (fun j1 =>
        e ≤ j1 ∧ noNewlineBetween l e j1 ∧ wordAtWithBounds l j1 "where".toList ∧
        (List.range (l.length + 1)).any (fun j2 =>
          j1 + 5 ≤ j2 ∧ noNewlineBetween l (j1 + 5) j2 ∧ l.get? j2 = some '=' ∧
          (List.range (l.length + 1)).any (fun j3 =>
            j2 + 1 ≤ j3 ∧ noNewlineBetween l (j2 + 1) j3 ∧
            wordAtWithBounds l j3 "or".toList))))))

/-! ## Destructive analyzer (`analyzers/destructive.ts`) -/

/-- The `SQL_DESTRUCTIVE` regex list applied to a raw segment (the source
pushes a single finding for the first matching regex). -/
def sqlDestructive (raw : String) : Bool :=
  let l := lowList raw
  sqlWordPair l "drop".toList ["database".toList, "table".toList, "schema".toList, "index".toList]
    ∨ sqlWordPair l "truncate".toList ["table".toList]
    ∨ sqlDeleteMatch l

/-- The per-token force test of the `rm` rule:
`a === "-f" || a === "-rf" || a === "-fr" || a.startsWith("--force") ||
(a.startsWith("-") && !a.startsWith("--") && a.includes("f"))`. -/
def forceTok (a : String) : Bool :=
  a = "-f" ∨ a = "-rf" ∨ a = "-fr" ∨ strStartsWith a "--force" ∨
    (strStartsWith a "-" ∧ ¬ strStartsWith a "--" ∧ strContains a "f")

/-- The per-token recursive test of the `rm` rule. -/
def recursiveTok (a : String) : Bool :=
  a = "-r" ∨ a = "-R" ∨ a = "-rf" ∨ a = "-fr" ∨ a = "-rR" ∨ a = "-Rf" ∨
    strStartsWith a "--recursive" ∨
    (strStartsWith a "-" ∧ ¬ strStartsWith a "--" ∧ (strContains a "r" ∨ strContains a "R"))

/-- `const flags = cmd.args.filter(a => a.startsWith("-"))`. -/
def rmFlags (args : List String) : List String :=
  args.filter (fun a => strStartsWith a "-")

/-- `hasForce`: flag detection runs over the dash-filtered tokens only. -/
def rmHasForce (args : List String) : Bool :=
  (rmFlags args).any forceTok

/-- `hasRecursive`: flag detection runs over the dash-filtered tokens only. -/
def rmHasRecursive (args : List String) : Bool :=
  (rmFlags args).any recursiveTok

/-- `const targets = cmd.args.filter(a => !a.startsWith("-"))`. -/
def rmTargets (args : List String) : List String :=
  args.filter (fun a => ¬ strStartsWith a "-")

/-- The `rm` rule of the destructive analyzer (flag detection plus target
escalation). -/
def rmFindings (cmd : ParsedCommand) : List Finding :=
  if cmd.verb = "rm" then
    let hasForce := rmHasForce cmd.args
    let hasRecursive := rmHasRecursive cmd.args
    let targets := rmTargets cmd.args
    if hasForce ∧ hasRecursive then
      let isRoot := targets.any (fun t => t = "/" ∨ t = "/*")
      let isHome := targets.any (fun t =>
        t = "~" ∨ strStartsWith t "~/" ∨ t = "$HOME" ∨ t = homeDirectory ∨
          t = homeDirectory ++ "/")
      let isWildcard := targets.any (fun t => t = "*")
      if isRoot then
        [⟨"destructive", RiskLevel.critical,
          "`rm -rf /` — irreversible deletion of all files on the system"⟩]
      else if isHome then
        [⟨"destructive", RiskLevel.critical,
          "`rm -rf ~` — irreversible deletion of entire home directory"⟩]
      else if isWildcard then
        [⟨"destructive", RiskLevel.high,
          "`rm -rf *` — irreversible deletion of all files in current directory"⟩]
      else
        [⟨"destructive", RiskLevel.medium,
          "`rm -rf " ++ joinSep " " targets ++ "` — recursive forced deletion"⟩]
    else if hasForce ∨ hasRecursive then
      [⟨"destructive", RiskLevel.low,
        "`rm` with " ++ (if hasForce then "force" else "recursive") ++ " flag on " ++
          (let t := joinSep " " targets
           if t = "" then "unknown target" else t)⟩]
    else []
  else []

/-- The `truncate`, `mkfs`, `shred` and `dd` rules of the destructive analyzer. -/
def verbDestructiveFindings (cmd : ParsedCommand) : List Finding :=
  (if cmd.verb = "truncate" then
    [⟨"destructive", RiskLevel.medium,
      "`truncate` — empties file contents (" ++
        joinSep " " (cmd.args.filter (fun a => ¬ strStartsWith a "-")) ++ ")"⟩]
  else []) ++
  (if cmd.verb = "mkfs" then
    [⟨"destructive", RiskLevel.critical,
      "`mkfs` — formats a filesystem, destroying all data on the device"⟩]
  else []) ++
  (if cmd.verb = "shred" then
    [⟨"destructive", RiskLevel.high,
      "`shred` — securely overwrites file(s), making data unrecoverable"⟩]
  else []) ++
  (if cmd.verb = "dd" then
    (let ofTarget := cmd.args.find? (fun a => strStartsWith a "of=")
     let isDevice := match ofTarget with
       | some t => strContains t "of=/dev/"
       | Option.none => false
     if isDevice then
       [⟨"destructive", RiskLevel.critical,
         "`dd` writing directly to device (" ++ ofTarget.getD "" ++
           ") — can destroy entire disk"⟩]
     else
       [⟨"destructive", RiskLevel.high,
         "`dd` — low-level data copy, can overwrite files or devices"⟩])
  else [])

/-- `DANGEROUS_GIT_PATTERNS` from `analyzers/destructive.ts`. -/
def DANGEROUS_GIT_PATTERNS : List (List String × String) :=
  [ (["push", "-f"], "Force push — overwrites remote history"),
    (["push", "--force"], "Force push — overwrites remote history"),
    (["push", "--force-with-lease"], "Force push (with lease) — may overwrite remote history"),
    (["reset", "--hard"], "Hard reset — discards all uncommitted changes"),
    (["clean", "-f"], "Force clean — permanently deletes untracked files") ]

/-- The `git` rule of the destructive analyzer (first matching pattern wins,
mirroring the `break`). -/
def gitFindings (cmd : ParsedCommand) : List Finding :=
  if cmd.verb = "git" then
    match DANGEROUS_GIT_PATTERNS.find?
        (fun pat => pat.1.all (fun arg => cmd.args.any (fun a => a = arg))) with
    | some pat =>
      if pat.1.contains "push" ∧ (pat.1.contains "-f" ∨ pat.1.contains "--force") then
        let targetsMain := cmd.args.any (fun a =>
          a = "main" ∨ a = "master" ∨ strEndsWith a "/main" ∨ strEndsWith a "/master")
        [⟨"destructive", if targetsMain then RiskLevel.critical else RiskLevel.high,
          pat.2 ++ (if targetsMain then " (targeting main/master branch)" else "")⟩]
      else [⟨"destructive", RiskLevel.high, pat.2⟩]
    | Option.none => []
  else []

/-- The SQL rule of the destructive analyzer. -/
def sqlFindings (cmd : ParsedCommand) : List Finding :=
  if sqlDestructive cmd.rawSegment then
    [⟨"destructive", RiskLevel.critical,
      "SQL destructive operation detected: `" ++ strTake cmd.rawSegment 80 ++ "`"⟩]
  else []

/-- All findings the destructive analyzer emits for one segment, in source
order: rm, truncate/mkfs/shred/dd, git, SQL. -/
def destructiveSegFindings (cmd : ParsedCommand) : List Finding :=
  rmFindings cmd ++ verbDestructiveFindings cmd ++ gitFindings cmd ++ sqlFindings cmd

/-- `destructiveAnalyzer.analyze` from `analyzers/destructive.ts`. -/
def destructiveAnalyze (parsed : List ParsedCommand) : AnalyzerResult :=
  { findings := parsed.flatMap destructiveSegFindings }

/-- C1: `rm` force/recursive intent is read only from tokens starting with
"-" (two argument lists with the same dash-tokens get identical flag
detection); each individual flag form is recognized; `rm foo.txt` produces
zero destructive findings end to end; and an `rm` carrying exactly one of the
two flags makes the rm rule emit exactly one low-severity finding. -/
theorem claim_C1_rm_flag_detection :
    (∀ args args' : List String, rmFlags args = rmFlags args' →
      rmHasForce args = rmHasForce args' ∧ rmHasRecursive args = rmHasRecursive args') ∧
    (rmHasForce ["-f"] = true ∧ rmHasForce ["-rf"] = true ∧ rmHasForce ["-fr"] = true ∧
      rmHasForce ["--force"] = true ∧ rmHasRecursive ["-r"] = true ∧
      rmHasRecursive ["-R"] = true ∧ rmHasRecursive ["-rf"] = true ∧
      rmHasRecursive ["-fr"] = true ∧ rmHasRecursive ["-rR"] = true ∧
      rmHasRecursive ["-Rf"] = true ∧ rmHasRecursive ["--recursive"] = true ∧
      rmHasForce ["foo.txt"] = false ∧ rmHasRecursive ["myfile.rtf"] = false) ∧
    (parseCommand "rm foo.txt").map (fun segs => (destructiveAnalyze segs).findings) =
      Except.ok [] ∧
    (∀ cmd : ParsedCommand, cmd.verb = "rm" →
      ((rmHasForce cmd.args = true ∧ rmHasRecursive cmd.args = false) ∨
       (rmHasForce cmd.args = false ∧ rmHasRecursive cmd.args = true)) →
      ∃ d, rmFindings cmd = [⟨"destructive", RiskLevel.low, d⟩]) := by
  refine ⟨fun args args' h => ?_, by decide, by rfl, fun cmd hverb hflags => ?_⟩
  · rw [rmHasForce, rmHasForce, rmHasRecursive, rmHasRecursive, h]
    exact ⟨rfl, rfl⟩
  · rcases hflags with ⟨hf, hr⟩ | ⟨hf, hr⟩ <;> simp [rmFindings, hverb, hf, hr]

/-- C1 witness: flag detection ignores the non-dash token, and a single-flag
`rm` yields one low finding. -/
theorem claim_C1_rm_flag_detection_witness :
    (rmHasForce ["-f", "a"] = rmHasForce ["-f"] ∧
      rmHasRecursive ["-f", "a"] = rmHasRecursive ["-f"]) ∧
    ∃ d, rmFindings ⟨"rm", ["-f", "x"], Option.none, [], "rm -f x", 0⟩ =
      [⟨"destructive", RiskLevel.low, d⟩] :=
  ⟨claim_C1_rm_flag_detection.1 ["-f", "a"] ["-f"] (by decide),
   claim_C1_rm_flag_detection.2.2.2 ⟨"rm", ["-f", "x"], Option.none, [], "rm -f x", 0⟩
     rfl (Or.inl (by decide))⟩

/-! ## Network analyzer (`analyzers/network.ts`) -/

/-- `NETWORK_VERBS` from `analyzers/network.ts`. -/
def NETWORK_VERBS : List String :=
  ["curl", "wget", "nc", "netcat", "ncat", "ssh", "scp", "rsync", "ftp", "sftp"]

/-- `DNS_VERBS` from `analyzers/network.ts`. -/
def DNS_VERBS : List String := ["nslookup", "dig", "host", "drill"]

/-- `SAFE_HOSTS` from `analyzers/network.ts`. -/
def SAFE_HOSTS : List String :=
  ["registry.npmjs.org", "pypi.org", "crates.io", "github.com",
   "raw.githubusercontent.com", "api.github.com", "localhost", "127.0.0.1", "::1"]

/-- The `SENSITIVE_DATA_SOURCES` regex list applied to a string: literal
contains-searches, two `$`-anchored suffix tests and two case-insensitive
words. -/
def sensitiveDataSource (s : String) : Bool :=
  strContains s "/etc/passwd" ∨ strContains s "/etc/shadow" ∨ strContains s ".ssh/" ∨
    strContains s ".aws/" ∨ strContains s ".env" ∨ strContains s "id_rsa" ∨
    strEndsWith s ".pem" ∨ strEndsWith s ".key" ∨ strContains s "credentials" ∨
    strContains (strToLower s) "secret" ∨ strContains (strToLower s) "token"

/-- Models `extractHost`: `new URL(url).hostname` of the platform URL parser,
restricted to the `http://`/`https://`/`ftp://` URLs the analyzer feeds it
(authority up to the first `/`, `?` or `#`; userinfo before the last `@`
stripped; port after `:` stripped; lower-cased); `none` on parse failure. -/
def extractHost (url : String) : Option String :=
  let rest :=
    if strStartsWith url "http://" then some (strDrop url 7)
    else if strStartsWith url "https://" then some (strDrop url 8)
    else if strStartsWith url "ftp://" then some (strDrop url 6)
    else Option.none
  match rest with
  | Option.none => Option.none
  | some r =>
    let authority := r.toList.takeWhile (fun c => c ≠ '/' ∧ c ≠ '?' ∧ c ≠ '#')
    let afterUser :=
      if authority.contains '@' then
        (authority.reverse.takeWhile (fun c => c ≠ '@')).reverse
      else authority
    let host := afterUser.takeWhile (fun c => c ≠ ':')
    if host = [] then Option.none else some (String.mk (host.map Char.toLower))

/-- `findArgValue` from `analyzers/network.ts`: the token after a flag, or the
`--flag=value` form. -/
def findArgValue : List String → List String → Option String
  | [], _ => Option.none
  | a :: rest, flags =>
    if flags.contains a ∧ rest ≠ [] then rest.head?
    else
      match flags.find? (fun flag => strStartsWith a (flag ++ "=")) with
      | some flag => some (strDrop a (strLen flag + 1))
      | Option.none => findArgValue rest flags

/-- The credential-header regex
`/\b(Authorization|Bearer|Token|Cookie|X-Api-Key|X-Auth-Token)\b/i`. -/
def credentialLeak (headerValue : String) : Bool :=
  let l := lowList headerValue
  ["authorization", "bearer", "token", "cookie", "x-api-key", "x-auth-token"].any
    (fun w => wordSearch l w.toList)

/-- `uploadsData`: the upload-flag membership test. -/
def uploadFlagTok (a : String) : Bool :=
  a = "-d" ∨ a = "--data" ∨ a = "--data-binary" ∨ a = "-F" ∨ a = "--form" ∨
    a = "-T" ∨ a = "--upload-file"

/-- `uploadsData` for a segment. -/
def segUploads (cmd : ParsedCommand) : Bool := cmd.args.any uploadFlagTok

/-- The first URL-shaped argument of a segment. -/
def segUrl (cmd : ParsedCommand) : Option String :=
  cmd.args.find? (fun a =>
    strStartsWith a "http://" ∨ strStartsWith a "https://" ∨ strStartsWith a "ftp://")

/-- The extracted host (null on no URL or parse failure). -/
def segHost (cmd : ParsedCommand) : Option String :=
  match segUrl cmd with
  | some u => extractHost u
  | Option.none => Option.none

/-- `isSafeHost` for a segment against a safe-host set. -/
def segIsSafeHost (safeHosts : List String) (cmd : ParsedCommand) : Bool :=
  match segHost cmd with
  | some h => safeHosts.contains h
  | Option.none => false

/-- `isHttp`: the URL argument starts with `http://`. -/
def segIsHttp (cmd : ParsedCommand) : Bool :=
  match segUrl cmd with
  | some u => strStartsWith u "http://"
  | Option.none => false

/-- The pipe-in-sensitive guard: this segment is terminal
(`cmd.operator === null`), a previous segment exists, its trailing operator is
`|` and its raw text matches a sensitive-data regex. -/
def pipeConsumed (prev : Option ParsedCommand) (cmd : ParsedCommand) : Bool :=
  match cmd.operator, prev with
  | Option.none, some p => p.operator = some "|" ∧ sensitiveDataSource p.rawSegment
  | _, _ => false

/-- JS template `${host ?? "unknown host"}`. -/
def hostOrUnknown (host : Option String) : String := host.getD "unknown host"

/-- The loop body of the network analyzer for one segment (`prev` is the
preceding segment, if any). -/
def netSegFindings (safeHosts : List String) (prev : Option ParsedCommand)
    (cmd : ParsedCommand) : List Finding :=
  if DNS_VERBS.contains cmd.verb then
    (if strContains cmd.rawSegment "$(" ∨ strContains cmd.rawSegment (String.mk [btick]) then
      [⟨"network", RiskLevel.critical,
        "`" ++ cmd.verb ++ "` with embedded subshell — possible DNS exfiltration"⟩]
    else
      [⟨"network", RiskLevel.low, "`" ++ cmd.verb ++ "` — DNS lookup tool"⟩])
  else if ¬ NETWORK_VERBS.contains cmd.verb then []
  else if pipeConsumed prev cmd then
    match prev with
    | some p =>
      [⟨"network", RiskLevel.critical,
        "Piping sensitive data to `" ++ cmd.verb ++ "` — possible data exfiltration: `" ++
          strTake p.rawSegment 40 ++ "... | " ++ cmd.verb ++ "`"⟩]
    | Option.none => []
  else
    let host := segHost cmd
    let isSafeHost := segIsSafeHost safeHosts cmd
    let headerFindings :=
      if cmd.verb = "curl" ∨ cmd.verb = "wget" then
        match findArgValue cmd.args ["-H", "--header"] with
        | some hv =>
          if ¬ isSafeHost ∧ credentialLeak hv then
            [⟨"network", RiskLevel.high,
              "`" ++ cmd.verb ++ "` sending credentials in header to `" ++
                hostOrUnknown host ++ "`"⟩]
          else []
        | Option.none => []
      else []
    let mainFindings :=
      if segUploads cmd ∧ ¬ isSafeHost then
        let dataArg := findArgValue cmd.args ["-d", "--data", "--data-binary", "-T", "--upload-file"]
        let dataSensitive := match dataArg with
          | some d => sensitiveDataSource d
          | Option.none => false
        if dataSensitive then
          [⟨"network", RiskLevel.critical,
            "`" ++ cmd.verb ++ "` uploading sensitive data to `" ++ hostOrUnknown host ++ "`"⟩]
        else
          [⟨"network", RiskLevel.high,
            "`" ++ cmd.verb ++ "` sending data to `" ++ hostOrUnknown host ++ "`"⟩]
      else if segIsHttp cmd ∧ ¬ isSafeHost then
        [⟨"network", RiskLevel.medium,
          "`" ++ cmd.verb ++ "` using unencrypted HTTP to `" ++ host.getD "null" ++ "`"⟩]
      else if cmd.verb = "nc" ∨ cmd.verb = "netcat" ∨ cmd.verb = "ncat" then
        [⟨"network", RiskLevel.high,
          "`" ++ cmd.verb ++ "` — raw network connection (commonly used for data exfiltration)"⟩]
      else []
    headerFindings ++ mainFindings

/-- The per-segment loop of the network analyzer. -/
def netLoop (safeHosts : List String) : Option ParsedCommand → List ParsedCommand →
    List Finding
  | _, [] => []
  | prev, cmd :: rest =>
    netSegFindings safeHosts prev cmd ++ netLoop safeHosts (some cmd) rest

/-- `createNetworkAnalyzer(extraSafeHosts).analyze` from `analyzers/network.ts`
(pass `SAFE_HOSTS` for the default analyzer): the segment loop followed by the
chain-exfiltration check. -/
def networkAnalyze (safeHosts : List String) (parsed : List ParsedCommand) :
    AnalyzerResult :=
  let loopFindings := netLoop safeHosts Option.none parsed
  let chain :=
    if 2 ≤ parsed.length then
      match parsed.getLast? with
      | some last =>
        if NETWORK_VERBS.contains last.verb ∧
            parsed.dropLast.any (fun seg => seg.operator = some "|") ∧
            parsed.dropLast.any (fun seg => sensitiveDataSource seg.rawSegment) ∧
            ¬ loopFindings.any (fun f => f.severity = RiskLevel.critical) then
          [⟨"network", RiskLevel.critical,
            "Command chain pipes sensitive data to `" ++ last.verb ++ "` — possible exfiltration"⟩]
        else []
      | Option.none => []
    else []
  { findings := loopFindings ++ chain }

/-- C3 counterexample: `nc http://evil.com` — a raw-socket verb whose URL
argument is plain http to a non-safe host.  The claim says a high raw-socket
finding is emitted regardless; the analyzer instead takes the clear-text
`else if` branch and emits a single medium finding, so no high finding exists. -/
theorem claim_C3_counterexample :
    (networkAnalyze SAFE_HOSTS
        [⟨"nc", ["http://evil.com"], Option.none, [], "nc http://evil.com", 0⟩]).findings =
      [⟨"network", RiskLevel.medium, "`nc` using unencrypted HTTP to `evil.com`"⟩] ∧
    (networkAnalyze SAFE_HOSTS
        [⟨"nc", ["http://evil.com"], Option.none, [], "nc http://evil.com", 0⟩]).findings.any
      (fun f => f.severity = RiskLevel.high) = false := by
  decide

/-- Two string appends differ when the right parts are nonempty with distinct
last characters. -/
theorem append_ne_of_getLast {a b x y : String} (hx : x.toList ≠ []) (hy : y.toList ≠ [])
    (hne : x.toList.getLast? ≠ y.toList.getLast?) : a ++ x ≠ b ++ y := by
  intro hEq
  apply hne
  have hax : (a ++ x).toList = a.toList ++ x.toList := String.data_append a x
  have hby : (b ++ y).toList = b.toList ++ y.toList := String.data_append b y
  have h : (a.toList ++ x.toList).getLast? = (b.toList ++ y.toList).getLast? := by
    rw [← hax, ← hby, hEq]
  rw [List.getLast?_append_of_ne_nil _ hx, List.getLast?_append_of_ne_nil _ hy] at h
  exact h

/-- C3 amended: for a segment whose verb is `nc`/`netcat`/`ncat`, not consumed
by the pipe-in-sensitive rule: (1) when neither the data-send branch (upload
flag with non-safe host) nor the clear-text branch (http URL with non-safe
host) fires, the segment yields exactly the high raw-socket finding; (2) when
the data-send branch fires, the segment yields exactly one finding, the
critical sensitive-upload or the high data-send finding, and the raw-socket
finding is not emitted; (3) when the data-send branch does not fire but the
clear-text branch does, the segment yields exactly the medium clear-text
finding and the raw-socket finding is not emitted. -/
theorem claim_C3_amended (safeHosts : List String) (prev : Option ParsedCommand)
    (cmd : ParsedCommand)
    (hverb : cmd.verb = "nc" ∨ cmd.verb = "netcat" ∨ cmd.verb = "ncat")
    (hpipe : pipeConsumed prev cmd = false) :
    (¬ (segUploads cmd = true ∧ segIsSafeHost safeHosts cmd = false) →
     ¬ (segIsHttp cmd = true ∧ segIsSafeHost safeHosts cmd = false) →
      netSegFindings safeHosts prev cmd =
        [⟨"network", RiskLevel.high,
          "`" ++ cmd.verb ++ "` — raw network connection (commonly used for data exfiltration)"⟩]) ∧
    (segUploads cmd = true ∧ segIsSafeHost safeHosts cmd = false →
      (∃ sev desc,
        netSegFindings safeHosts prev cmd = [⟨"network", sev, desc⟩] ∧
        ((sev = RiskLevel.critical ∧
            desc = "`" ++ cmd.verb ++ "` uploading sensitive data to `" ++
              hostOrUnknown (segHost cmd) ++ "`") ∨
         (sev = RiskLevel.high ∧
            desc = "`" ++ cmd.verb ++ "` sending data to `" ++
              hostOrUnknown (segHost cmd) ++ "`"))) ∧
      ⟨"network", RiskLevel.high,
        "`" ++ cmd.verb ++ "` — raw network connection (commonly used for data exfiltration)"⟩ ∉
        netSegFindings safeHosts prev cmd) ∧
    (¬ (segUploads cmd = true ∧ segIsSafeHost safeHosts cmd = false) →
      (segIsHttp cmd = true ∧ segIsSafeHost safeHosts cmd = false) →
      netSegFindings safeHosts prev cmd =
        [⟨"network", RiskLevel.medium,
          "`" ++ cmd.verb ++ "` using unencrypted HTTP to `" ++
            (segHost cmd).getD "null" ++ "`"⟩] ∧
      ⟨"network", RiskLevel.high,
        "`" ++ cmd.verb ++ "` — raw network connection (commonly used for data exfiltration)"⟩ ∉
        netSegFindings safeHosts prev cmd) := by
  have hdns : cmd.verb ∉ DNS_VERBS := by
    rcases hverb with h | h | h <;> simp [DNS_VERBS, h]
  have hnet : cmd.verb ∈ NETWORK_VERBS := by
    rcases hverb with h | h | h <;> simp [NETWORK_VERBS, h]
  have hcw : ¬ (cmd.verb = "curl" ∨ cmd.verb = "wget") := by
    rcases hverb with h | h | h <;> simp [h]
  refine ⟨?_, ?_, ?_⟩
  · intro hup hhttp
    unfold netSegFindings
    rw [if_neg (by simp [hdns]), if_neg (by simp [hnet]), if_neg (by simp [hpipe])]
    dsimp only
    rw [if_neg hcw]
    rw [if_neg (by simp only [Bool.not_eq_true]; exact hup),
      if_neg (by simp only [Bool.not_eq_true]; exact hhttp), if_pos hverb]
    simp
  · intro hA
    have key : netSegFindings safeHosts prev cmd =
        [⟨"network", RiskLevel.critical,
          "`" ++ cmd.verb ++ "` uploading sensitive data to `" ++
            hostOrUnknown (segHost cmd) ++ "`"⟩] ∨
        netSegFindings safeHosts prev cmd =
        [⟨"network", RiskLevel.high,
          "`" ++ cmd.verb ++ "` sending data to `" ++
            hostOrUnknown (segHost cmd) ++ "`"⟩] := by
      unfold netSegFindings
      rw [if_neg (by simp [hdns]), if_neg (by simp [hnet]), if_neg (by simp [hpipe])]
      dsimp only
      rw [if_neg hcw, if_pos ⟨hA.1, by simp [hA.2]⟩]
      split
      · exact Or.inl (by simp)
      · exact Or.inr (by simp)
    rcases key with h | h
    · refine ⟨⟨RiskLevel.critical,
        "`" ++ cmd.verb ++ "` uploading sensitive data to `" ++
          hostOrUnknown (segHost cmd) ++ "`", h, Or.inl ⟨rfl, rfl⟩⟩, ?_⟩
      rw [h]
      intro hmem
      rw [List.mem_singleton] at hmem
      exact absurd (congrArg Finding.severity hmem) (by simp)
    · refine ⟨⟨RiskLevel.high,
        "`" ++ cmd.verb ++ "` sending data to `" ++
          hostOrUnknown (segHost cmd) ++ "`", h, Or.inr ⟨rfl, rfl⟩⟩, ?_⟩
      rw [h]
      intro hmem
      rw [List.mem_singleton] at hmem
      exact append_ne_of_getLast (by decide) (by decide) (by decide)
        (congrArg Finding.description hmem)
  · intro hup hB
    have key : netSegFindings safeHosts prev cmd =
        [⟨"network", RiskLevel.medium,
          "`" ++ cmd.verb ++ "` using unencrypted HTTP to `" ++
            (segHost cmd).getD "null" ++ "`"⟩] := by
      unfold netSegFindings
      rw [if_neg (by simp [hdns]), if_neg (by simp [hnet]), if_neg (by simp [hpipe])]
      dsimp only
      rw [if_neg hcw, if_neg (by simp only [Bool.not_eq_true]; exact hup),
        if_pos ⟨hB.1, by simp [hB.2]⟩]
      simp
    refine ⟨key, ?_⟩
    rw [key]
    intro hmem
    rw [List.mem_singleton] at hmem
    exact absurd (congrArg Finding.severity hmem) (by simp)

/-- C3 amended witness: three concrete `nc` segments, one per branch:
`nc -l 4444` (neither branch fires) yields exactly the raw-socket finding;
`nc -d x http://evil.com` (upload flag, non-safe host) yields exactly a
data-send finding and no raw-socket finding; `nc http://evil.com` (http URL,
non-safe host, no upload flag) yields exactly the medium clear-text finding
and no raw-socket finding. -/
theorem claim_C3_amended_witness :
    (netSegFindings SAFE_HOSTS Option.none
        ⟨"nc", ["-l", "4444"], Option.none, [], "nc -l 4444", 0⟩ =
      [⟨"network", RiskLevel.high,
        "`nc` — raw network connection (commonly used for data exfiltration)"⟩]) ∧
    ((∃ sev desc,
        netSegFindings SAFE_HOSTS Option.none
            ⟨"nc", ["-d", "x", "http://evil.com"], Option.none, [],
              "nc -d x http://evil.com", 0⟩ =
          [⟨"network", sev, desc⟩] ∧
        ((sev = RiskLevel.critical ∧ desc = "`nc` uploading sensitive data to `evil.com`") ∨
         (sev = RiskLevel.high ∧ desc = "`nc` sending data to `evil.com`"))) ∧
      ⟨"network", RiskLevel.high,
        "`nc` — raw network connection (commonly used for data exfiltration)"⟩ ∉
        netSegFindings SAFE_HOSTS Option.none
          ⟨"nc", ["-d", "x", "http://evil.com"], Option.none, [],
            "nc -d x http://evil.com", 0⟩) ∧
    (netSegFindings SAFE_HOSTS Option.none
        ⟨"nc", ["http://evil.com"], Option.none, [], "nc http://evil.com", 0⟩ =
      [⟨"network", RiskLevel.medium, "`nc` using unencrypted HTTP to `evil.com`"⟩] ∧
      ⟨"network", RiskLevel.high,
        "`nc` — raw network connection (commonly used for data exfiltration)"⟩ ∉
        netSegFindings SAFE_HOSTS Option.none
          ⟨"nc", ["http://evil.com"], Option.none, [], "nc http://evil.com", 0⟩) :=
  ⟨(claim_C3_amended SAFE_HOSTS Option.none
      ⟨"nc", ["-l", "4444"], Option.none, [], "nc -l 4444", 0⟩
      (Or.inl rfl) (by decide)).1 (by decide) (by decide),
   (claim_C3_amended SAFE_HOSTS Option.none
      ⟨"nc", ["-d", "x", "http://evil.com"], Option.none, [],
        "nc -d x http://evil.com", 0⟩
      (Or.inl rfl) (by decide)).2.1 (by decide),
   (claim_C3_amended SAFE_HOSTS Option.none
      ⟨"nc", ["http://evil.com"], Option.none, [], "nc http://evil.com", 0⟩
      (Or.inl rfl) (by decide)).2.2 (by decide) (by decide)⟩

/-! ## Permissions analyzer (`analyzers/permissions.ts`) -/

/-- `SENSITIVE_SYSTEM_PATHS` from `analyzers/permissions.ts`. -/
def SENSITIVE_SYSTEM_PATHS : List String :=
  ["/etc/", "/usr/bin/", "/usr/local/bin/", "/usr/sbin/",
   "/var/log/", "/boot/", "/sys/", "/proc/"]

/-- `DANGEROUS_MODES` from `analyzers/permissions.ts`. -/
def DANGEROUS_MODES : List String := ["777", "666", "o+w", "a+w", "o+rwx", "a+rwx"]

/-- The mode-token regex `^[0-7]{3,4}$`. -/
def isOctalMode (a : String) : Bool :=
  a.toList.all (fun c => '0' ≤ c ∧ c ≤ '7') ∧
    (a.toList.length = 3 ∨ a.toList.length = 4)

/-- The mode-token regex `^[ugoa][+-][rwxst]+$`. -/
def isSymbolicMode (a : String) : Bool :=
  match a.toList with
  | u :: op :: rest =>
    (u = 'u' ∨ u = 'g' ∨ u = 'o' ∨ u = 'a') ∧ (op = '+' ∨ op = '-') ∧ rest ≠ [] ∧
      rest.all (fun c => c = 'r' ∨ c = 'w' ∨ c = 'x' ∨ c = 's' ∨ c = 't')
  | _ => false

/-- The `sudo` rule of the permissions analyzer. -/
def sudoFindings (cmd : ParsedCommand) : List Finding :=
  if cmd.verb = "sudo" then
    let innerVerb := cmd.args.headD "unknown"
    let isSensitive :=
      (["rm", "chmod", "chown", "mkfs", "dd", "kill", "shutdown", "reboot"] :
        List String).contains innerVerb
    if isSensitive then
      [⟨"permissions", RiskLevel.high,
        "`sudo " ++ innerVerb ++ "` — elevated privileges with a sensitive operation"⟩]
    else
      [⟨"permissions", RiskLevel.low,
        "`sudo " ++ innerVerb ++ "` — command runs with root privileges"⟩]
  else []

/-- The `chmod` rule of the permissions analyzer (also under `sudo`). -/
def chmodFindings (cmd : ParsedCommand) : List Finding :=
  if cmd.verb = "chmod" ∨ (cmd.verb = "sudo" ∧ cmd.args.headD "" = "chmod") then
    let args := if cmd.verb = "sudo" then cmd.args.drop 1 else cmd.args
    let modeArg := args.find? (fun a =>
      ¬ strStartsWith a "-" ∧ (isOctalMode a ∨ isSymbolicMode a))
    let targets := args.filter (fun a => ¬ strStartsWith a "-" ∧ some a ≠ modeArg)
    let isDangerous : Bool := match modeArg with
      | some m => DANGEROUS_MODES.contains m
      | Option.none => false
    let targetsSensitive := targets.any (fun t =>
      SENSITIVE_SYSTEM_PATHS.any (fun p => strStartsWith t p))
    if isDangerous ∧ targetsSensitive then
      [⟨"permissions", RiskLevel.critical,
        "`chmod " ++ modeArg.getD "undefined" ++ "` on system path (" ++
          joinSep ", " targets ++ ") — removes all access restrictions"⟩]
    else if isDangerous then
      [⟨"permissions", RiskLevel.high,
        "`chmod " ++ modeArg.getD "undefined" ++ "` — makes file(s) world-writable (" ++
          (let t := joinSep ", " targets
           if t = "" then "unknown target" else t) ++ ")"⟩]
    else if targetsSensitive then
      [⟨"permissions", RiskLevel.medium, "`chmod` on system path: " ++ joinSep ", " targets⟩]
    else []
  else []

/-- JS `array.indexOf(a)`. -/
def jsIndexOf (l : List String) (a : String) : Int :=
  match l.findIdx? (fun x => x == a) with
  | some i => (i : Int)
  | Option.none => -1

/-- The `chown` rule of the permissions analyzer (also under `sudo`). -/
def chownFindings (cmd : ParsedCommand) : List Finding :=
  if cmd.verb = "chown" ∨ (cmd.verb = "sudo" ∧ cmd.args.headD "" = "chown") then
    let args := if cmd.verb = "sudo" then cmd.args.drop 1 else cmd.args
    let targets := args.filter (fun a =>
      ¬ strStartsWith a "-" ∧ ¬ strContains a ":" ∧ 0 < jsIndexOf args a)
    let targetsSensitive := targets.any (fun t =>
      SENSITIVE_SYSTEM_PATHS.any (fun p => strStartsWith t p))
    [⟨"permissions", if targetsSensitive then RiskLevel.high else RiskLevel.medium,
      "`chown` — changes file ownership" ++
        (if targetsSensitive then " on system path" else "") ++ " (" ++
        (let t := joinSep ", " targets
         if t = "" then "unknown target" else t) ++ ")"⟩]
  else []

/-- All findings of the permissions analyzer for one segment. -/
def permissionsSegFindings (cmd : ParsedCommand) : List Finding :=
  sudoFindings cmd ++ chmodFindings cmd ++ chownFindings cmd

/-- `permissionsAnalyzer.analyze`. -/
def permissionsAnalyze (parsed : List ParsedCommand) : AnalyzerResult :=
  { findings := parsed.flatMap permissionsSegFindings }

/-! ## Sensitive-path analyzer (`analyzers/sensitive-path.ts`) -/

/-- `WRITE_VERBS` from `analyzers/sensitive-path.ts`. -/
def WRITE_VERBS : List String :=
  ["cp", "mv", "tee", "dd", "install", "rsync", "sed", "awk", "nano", "vim", "vi", "emacs"]

/-- `READ_VERBS` from `analyzers/sensitive-path.ts`. -/
def READ_VERBS : List String :=
  ["cat", "head", "tail", "less", "more", "bat", "grep", "rg", "awk", "sed", "wc",
   "sort", "uniq"]

/-- `DEFAULT_PATTERNS` (glob, label). -/
def DEFAULT_PATTERNS : List (String × String) :=
  [ ("~/.ssh/*", "SSH keys and configuration"),
    ("~/.aws/*", "AWS credentials"),
    ("~/.config/gcloud/*", "GCloud credentials"),
    ("~/.claude/*", "Claude agent configuration"),
    (".cursorrules", "Cursor agent rules"),
    ("CLAUDE.md", "Claude instructions file"),
    ("/etc/passwd", "System user database"),
    ("/etc/shadow", "System password hashes"),
    ("/etc/sudoers", "Sudo configuration"),
    (".env", "Environment secrets"),
    ("*.pem", "PEM certificate/key"),
    ("*id_rsa*", "RSA private key"),
    ("*.key", "Private key file"),
    ("/usr/local/bin/*", "System binary directory"),
    ("/usr/bin/*", "System binary directory") ]

/-- The matcher for the regex `globToRegex` compiles to: `**` crosses `/`,
`*` stays within a segment, `?` is one character, everything else literal
(regex metacharacters were escaped).  Requires the whole remaining string to
be consumed (the `$` anchor).  Fuel-based (any value above pattern length plus
string length suffices). -/
def globCore : Nat → List Char → List Char → Bool
  | 0, _, _ => false
  | _ + 1, [], s => s = []
  | fuel + 1, '*' :: '*' :: p, s =>
    globCore fuel p s ||
      (match s with
       | _ :: st => globCore fuel ('*' :: '*' :: p) st
       | [] => false)
  | fuel + 1, '*' :: p, s =>
    globCore fuel p s ||
      (match s with
       | c :: st => c ≠ '/' && globCore fuel ('*' :: p) st
       | [] => false)
  | fuel + 1, '?' :: p, s =>
    (match s with
     | _ :: st => globCore fuel p st
     | [] => false)
  | fuel + 1, c :: p, s =>
    (match s with
     | d :: st => c == d && globCore fuel p st
     | [] => false)

/-- `globToRegex(pattern).test(s)`: the compiled regex is `(^|/)E$`, so the
expanded glob must match a suffix of `s` starting at the beginning or right
after a `/`. -/
def globRegexTest (pattern : String) (s : String) : Bool :=
  let p := (expandTilde pattern).toList
  let l := s.toList
  (List.range (l.length + 1)).any (fun i =>
    (decide (i = 0) || (l.get? (i - 1) == some '/')) &&
    globCore (p.length + l.length + 1) p (l.drop i))

/-- JS `path.split("/").pop() ?? path`. -/
def basename (path : String) : String :=
  match (splitOnChar '/' path.toList).getLast? with
  | some b => String.mk b
  | Option.none => path

/-- `matchPath` from `analyzers/sensitive-path.ts`: first pattern hitting the
expanded path, the raw path, the basename, or the home-expanded path. -/
def matchPath (path : String) (patterns : List (String × String)) :
    Option (String × String) :=
  let expanded := expandTilde path
  patterns.find? (fun pat =>
    globRegexTest pat.1 expanded || globRegexTest pat.1 path ||
    globRegexTest pat.1 (basename path) ||
    (strStartsWith path "~/" && globRegexTest pat.1 (homeDirectory ++ strDrop path 1)))

/-- The credential-tier labels tested by the severity matrix. -/
def CREDENTIAL_LABELS : List String :=
  ["SSH keys and configuration", "AWS credentials", "GCloud credentials",
   "RSA private key", "Private key file", "PEM certificate/key"]

/-- All findings of the sensitive-path analyzer for one segment (the source's
`â€”` separator byte sequence in the description is reproduced verbatim). -/
def sensitivePathSegFindings (cmd : ParsedCommand) : List Finding :=
  let argPaths : List (String × Bool) :=
    cmd.args.filterMap (fun arg =>
      if strStartsWith arg "-" then Option.none
      else
        let isWrite := WRITE_VERBS.contains cmd.verb
        let isRead := READ_VERBS.contains cmd.verb
        if isWrite ∨ isRead then some (arg, isWrite) else Option.none)
  let redirPaths := cmd.redirects.map (fun r => (r.target, true))
  let echoPaths :=
    if (cmd.verb = "echo" ∨ cmd.verb = "printf") ∧ cmd.redirects ≠ [] then
      cmd.redirects.map (fun r => (r.target, true))
    else []
  (argPaths ++ redirPaths ++ echoPaths).flatMap (fun pw =>
    match matchPath pw.1 DEFAULT_PATTERNS with
    | Option.none => []
    | some pat =>
      let isSystemAuth := pat.2 = "System password hashes" ∨ pat.2 = "Sudo configuration"
      let isCredential := CREDENTIAL_LABELS.contains pat.2
      let severity :=
        if pw.2 ∧ (isCredential ∨ isSystemAuth) then RiskLevel.critical
        else if pw.2 ∧ pat.2 = "Claude agent configuration" then RiskLevel.high
        else if ¬ pw.2 ∧ isSystemAuth then RiskLevel.high
        else if pw.2 then RiskLevel.medium
        else RiskLevel.medium
      [⟨"sensitive-path", severity,
        (if pw.2 then "Writing to" else "Reading from") ++ " `" ++ pw.1 ++ "` â€” " ++ pat.2⟩])

/-- `sensitivePathAnalyzer.analyze` (the `cwd` argument is unused by the
source). -/
def sensitivePathAnalyze (parsed : List ParsedCommand) : AnalyzerResult :=
  { findings := parsed.flatMap sensitivePathSegFindings }

/-! ## Code-injection analyzer (`analyzers/code-injection.ts`) -/

/-- `EVAL_VERBS` from `analyzers/code-injection.ts`. -/
def EVAL_VERBS : List String := ["eval", "exec", "source"]

/-- `INTERPRETER_FLAGS` from `analyzers/code-injection.ts`. -/
def INTERPRETER_FLAGS : List (String × List String) :=
  [("bash", ["-c"]), ("sh", ["-c"]), ("zsh", ["-c"]), ("dash", ["-c"]),
   ("python", ["-c"]), ("python3", ["-c"]), ("node", ["-e", "--eval"]),
   ("ruby", ["-e"]), ("perl", ["-e"])]

/-- `INTERPRETERS` (the keys of `INTERPRETER_FLAGS`). -/
def INTERPRETERS : List String := INTERPRETER_FLAGS.map (fun p => p.1)

/-- The `NETWORK_VERBS` set local to the code-injection analyzer. -/
def CI_NETWORK_VERBS : List String := ["curl", "wget"]

/-- The inline-code flags of an interpreter verb. -/
def interpFlagsOf (verb : String) : List String :=
  ((INTERPRETER_FLAGS.find? (fun p => p.1 == verb)).map (fun p => p.2)).getD []

/-- The dangerous-operations regex
`/\brm\b|\bdel\b|\brmdir\b|\bos\.system\b|\bsubprocess\b|\bchild_process\b|\bexecSync\b|\bspawnSync\b/i`. -/
def dangerousOps (code : String) : Bool :=
  let l := lowList code
  (["rm", "del", "rmdir", "os.system", "subprocess", "child_process", "execsync",
    "spawnsync"] : List String).any (fun w => wordSearch l w.toList)

/-- The eval/exec/source rule. -/
def evalFindings (cmd : ParsedCommand) : List Finding :=
  let verb := strToLower cmd.verb
  if EVAL_VERBS.contains verb ∨ (verb = "." ∧ cmd.args ≠ []) then
    let argStr := joinSep " " cmd.args
    let hasSubshell := strContains argStr "$(" ∨ strContains argStr (String.mk [btick])
    let hasCurl := wordSearch (lowList argStr) "curl".toList ∨
      wordSearch (lowList argStr) "wget".toList
    if hasCurl then
      [⟨"code-injection", RiskLevel.critical,
        "`" ++ verb ++ "` with remote content — arbitrary code execution from network"⟩]
    else if hasSubshell then
      [⟨"code-injection", RiskLevel.high,
        "`" ++ verb ++ "` with subshell expansion — dynamic code execution"⟩]
    else
      [⟨"code-injection", RiskLevel.medium, "`" ++ verb ++ "` — dynamic code execution"⟩]
  else []

/-- The interpreter `-c`/`-e` inline-code rule (first qualifying flag wins). -/
def inlineFindings (cmd : ParsedCommand) : List Finding :=
  let verb := strToLower cmd.verb
  if INTERPRETERS.contains verb then
    let flags := interpFlagsOf verb
    match (List.range cmd.args.length).find? (fun i =>
        (match cmd.args.get? i with
         | some a => flags.contains a
         | Option.none => false) &&
        decide (i + 1 < cmd.args.length)) with
    | some i =>
      let code := joinSep " " (cmd.args.drop (i + 1))
      if dangerousOps code then
        [⟨"code-injection", RiskLevel.high,
          "`" ++ verb ++ " " ++ (cmd.args.get? i).getD "" ++
            "` — inline code with potentially dangerous operations"⟩]
      else
        [⟨"code-injection", RiskLevel.low,
          "`" ++ verb ++ " " ++ (cmd.args.get? i).getD "" ++ "` — inline code execution"⟩]
    | Option.none => []
  else []

/-- The `sudo <interpreter> -c|-e` rule (indices from 1, first hit wins). -/
def sudoInlineFindings (cmd : ParsedCommand) : List Finding :=
  let verb := strToLower cmd.verb
  if verb = "sudo" ∧ cmd.args ≠ [] then
    let innerVerb := strToLower (cmd.args.headD "")
    if INTERPRETERS.contains innerVerb then
      let flags := interpFlagsOf innerVerb
      match (List.range cmd.args.length).find? (fun i =>
          decide (1 ≤ i) &&
          (match cmd.args.get? i with
           | some a => flags.contains a
           | Option.none => false) &&
          decide (i + 1 < cmd.args.length)) with
      | some i =>
        [⟨"code-injection", RiskLevel.high,
          "`sudo " ++ innerVerb ++ " " ++ (cmd.args.get? i).getD "" ++
            "` — elevated inline code execution"⟩]
      | Option.none => []
    else []
  else []

/-- The curl/wget-piped-to-interpreter rule (looks the next segment up through
`position`). -/
def pipeInterpFindings (parsed : List ParsedCommand) (cmd : ParsedCommand) : List Finding :=
  let verb := strToLower cmd.verb
  if CI_NETWORK_VERBS.contains verb ∧ cmd.operator = some "|" then
    match parsed.get? (cmd.position + 1) with
    | some nextCmd =>
      let nextVerb := strToLower nextCmd.verb
      let actualInterp :=
        if nextVerb = "sudo" ∧ nextCmd.args ≠ [] then strToLower (nextCmd.args.headD "")
        else nextVerb
      if INTERPRETERS.contains actualInterp then
        [⟨"code-injection", RiskLevel.critical,
          "`" ++ verb ++ "` piped to `" ++ actualInterp ++ "` — remote code execution"⟩]
      else []
    | Option.none => []
  else []

/-- The `(?:-v|--volume)` prefix of the docker volume regexes at index `i`. -/
def volumeFlagAt (l : List Char) (i : Nat) : Option Nat :=
  if litAt l i "-v".toList then some (i + 2)
  else if litAt l i "--volume".toList then some (i + 8)
  else Option.none

/-- The case-insensitive root-mount regex `/(?:-v|--volume)\s+\/?:\//i`. -/
def dockerRootMount (argStr : String) : Bool :=
  let l := lowList argStr
  (List.range (l.length + 1)).any (fun i =>
    match volumeFlagAt l i with
    | some j =>
      let run := (l.drop j).takeWhile isSpaceJS
      decide (1 ≤ run.length) &&
        (litAt l (j + run.length) "/:/".toList || litAt l (j + run.length) ":/".toList)
    | Option.none => false)

/-- The volume regex
`/(?:-v|--volume)\s+\/?:\/|(?:-v|--volume)\s+\/[^:]*:\/[^:]*:?/` (no `/i`). -/
def dockerVolumePattern (argStr : String) : Bool :=
  let l := argStr.toList
  (List.range (l.length + 1)).any (fun i =>
    match volumeFlagAt l i with
    | some j =>
      let run := (l.drop j).takeWhile isSpaceJS
      decide (1 ≤ run.length) &&
        (let k := j + run.length
         (litAt l k "/:/".toList || litAt l k ":/".toList) ||
           (match l.get? k with
            | some '/' =>
              (List.range (l.length + 1)).any (fun m =>
                decide (k + 1 ≤ m) &&
                ((l.drop (k + 1)).take (m - (k + 1))).all (fun c => c ≠ ':') &&
                (l.get? m == some ':') && (l.get? (m + 1) == some '/'))
            | _ => false))
    | Option.none => false)

/-- The docker container-escape rules. -/
def dockerFindings (cmd : ParsedCommand) : List Finding :=
  let verb := strToLower cmd.verb
  if verb = "docker" ∧ cmd.args ≠ [] then
    let subCmd := cmd.args.headD ""
    if subCmd = "run" ∨ subCmd = "exec" ∨ subCmd = "create" then
      let argStr := joinSep " " cmd.args
      (if cmd.args.contains "--privileged" then
        [⟨"code-injection", RiskLevel.high,
          "`docker --privileged` — container has full host access"⟩]
      else []) ++
      (if dockerVolumePattern argStr ∧ dockerRootMount argStr then
        [⟨"code-injection", RiskLevel.critical,
          "`docker -v /:/...` — host root filesystem mounted in container"⟩]
      else []) ++
      (if cmd.args.contains "--pid=host" ∨ cmd.args.contains "--net=host" then
        [⟨"code-injection", RiskLevel.high,
          "`docker " ++
            (cmd.args.find? (fun a =>
              strStartsWith a "--pid=" ∨ strStartsWith a "--net=")).getD "undefined" ++
            "` — container shares host namespace"⟩]
      else [])
    else []
  else []

/-- All findings of the code-injection analyzer for one segment. -/
def codeInjectionSegFindings (parsed : List ParsedCommand) (cmd : ParsedCommand) :
    List Finding :=
  evalFindings cmd ++ inlineFindings cmd ++ sudoInlineFindings cmd ++
    pipeInterpFindings parsed cmd ++ dockerFindings cmd

/-- `codeInjectionAnalyzer.analyze`. -/
def codeInjectionAnalyze (parsed : List ParsedCommand) : AnalyzerResult :=
  { findings := parsed.flatMap (codeInjectionSegFindings parsed) }

/-! ## Package-vulnerability analyzer and oracle (`analyzers/package-vuln.ts`) -/

/-- `OsvVulnerability` (severity entries are `(type, score)` pairs; a missing
`severity` array behaves like an empty one in every consumer, so both are
modelled as `[]`). -/
structure OsvVuln where
  id : String
  summary : Option String := Option.none
  severity : List (String × String) := []
  deriving DecidableEq, Repr

/-- `PackageInfo`. -/
structure PackageInfo where
  name : String
  version : Option String
  ecosystem : String
  deriving DecidableEq, Repr

/-- JS `s.lastIndexOf(c)` as an optional index. -/
def lastIndexOfChar (s : String) (c : Char) : Option Nat :=
  ((List.range s.toList.length).filter (fun i => s.toList.get? i = some c)).getLast?

/-- The npm/cargo package token split: version after the last `@` only when
that `@` is not at index 0. -/
def atSplit (a : String) (eco : String) : PackageInfo :=
  match lastIndexOfChar a '@' with
  | some lastAt =>
    if 0 < lastAt then ⟨strTake a lastAt, some (strDrop a (lastAt + 1)), eco⟩
    else ⟨a, Option.none, eco⟩
  | Option.none => ⟨a, Option.none, eco⟩

/-- The npm `parseArgs`: tokens after `install`/`i`/`add`, non-flags only. -/
def npmParse (args : List String) : List PackageInfo :=
  match args.findIdx? (fun a => a == "install" || a == "i" || a == "add") with
  | Option.none => []
  | some installIdx =>
    ((args.drop (installIdx + 1)).filter (fun a => ¬ strStartsWith a "-")).map
      (fun a => atSplit a "npm")

/-- The cargo `parseArgs`: tokens after `add`/`install`. -/
def cargoParse (args : List String) : List PackageInfo :=
  match args.findIdx? (fun a => a == "add" || a == "install") with
  | Option.none => []
  | some addIdx =>
    ((args.drop (addIdx + 1)).filter (fun a => ¬ strStartsWith a "-")).map
      (fun a => atSplit a "crates.io")

/-- The pip token regex `^([^=<>!]+?)(?:==|>=|<=|~=|!=)(.+)$`: the lazy name is
the shortest non-empty prefix within the class followed by a two-character
operator and a non-empty remainder. -/
def pipSplit (a : String) : PackageInfo :=
  let l := a.toList
  let ok : Nat → Bool := fun p =>
    decide (1 ≤ p) &&
    (l.take p).all (fun c => c ≠ '=' && c ≠ '<' && c ≠ '>' && c ≠ '!') &&
    (match l.get? p, l.get? (p + 1) with
     | some c1, some c2 =>
       (c1 == '=' || c1 == '>' || c1 == '<' || c1 == '~' || c1 == '!') && c2 == '='
     | _, _ => false) &&
    decide (p + 2 < l.length)
  match (List.range (l.length + 1)).find? ok with
  | some p => ⟨String.mk (l.take p), some (String.mk (l.drop (p + 2))), "PyPI"⟩
  | Option.none => ⟨a, Option.none, "PyPI"⟩

/-- The pip `parseArgs`: tokens after `install`, non-flags only. -/
def pipParse (args : List String) : List PackageInfo :=
  match args.findIdx? (fun a => a == "install") with
  | Option.none => []
  | some installIdx =>
    ((args.drop (installIdx + 1)).filter (fun a => ¬ strStartsWith a "-")).map pipSplit

/-- The `ECOSYSTEM_MAP` dispatch for one verb (entry order npm, pip, cargo). -/
def packagesForVerb (verb : String) (args : List String) : List PackageInfo :=
  (if verb = "npm" then npmParse args else []) ++
  (if verb = "pip" ∨ verb = "pip3" then pipParse args else []) ++
  (if verb = "cargo" then cargoParse args else [])

/-- The package-extraction loop of `analyze` (direct verbs, then the `sudo`
unwrapping). -/
def extractPackages (parsed : List ParsedCommand) : List PackageInfo :=
  parsed.flatMap (fun cmd =>
    packagesForVerb cmd.verb cmd.args ++
    (if cmd.verb = "sudo" ∧ cmd.args ≠ [] then
      packagesForVerb (cmd.args.headD "") (cmd.args.drop 1)
    else []))

/-- The outcome of one `fetch` of `queryOsv`, as the code observes it: an HTTP
response with its status and the JSON parse result (`none` = `response.json()`
threw, `some none` = no `vulns` field, `some (some vs)` = the array), a
timeout abort, or any other network error. -/
inductive FetchOutcome where
  | response (status : Nat) (json : Option (Option (List OsvVuln)))
  | timeout
  | netError
  deriving DecidableEq, Repr

/-- `OsvResult`. -/
structure OsvResult where
  vulns : List OsvVuln
  error : Option String := Option.none
  deriving DecidableEq, Repr

/-- The oracle cache: a JS `Map` in insertion order, head = oldest insertion. -/
abbrev OsvCache := List (String × List OsvVuln)

/-- `OSV_CACHE_MAX`. -/
def OSV_CACHE_MAX : Nat := 500

/-- The cache key `` `${pkg.ecosystem}:${pkg.name}@${pkg.version}` ``. -/
def cacheKey (pkg : PackageInfo) : String :=
  pkg.ecosystem ++ ":" ++ pkg.name ++ "@" ++ pkg.version.getD "null"

/-- The store step of `queryOsv`: delete the eldest entry when at capacity,
then append the new entry. -/
def cacheInsert (cache : OsvCache) (key : String) (vulns : List OsvVuln) : OsvCache :=
  (if OSV_CACHE_MAX ≤ cache.length then cache.drop 1 else cache) ++ [(key, vulns)]

/-- `queryOsv` as a state transformer over the cache.  Returns the per-query
result, the cache afterwards, and whether the network was consulted. -/
def queryOsv (pkg : PackageInfo) (cache : OsvCache) (outcome : FetchOutcome) :
    OsvResult × OsvCache × Bool :=
  match pkg.version with
  | Option.none => (⟨[], Option.none⟩, cache, false)
  | some _ =>
    match cache.lookup (cacheKey pkg) with
    | some vs => (⟨vs, Option.none⟩, cache, false)
    | Option.none =>
      match outcome with
      | FetchOutcome.response status json =>
        if ¬ (200 ≤ status ∧ status ≤ 299) then
          (⟨[], some ("OSV API returned HTTP " ++ toString status)⟩, cache, true)
        else
          (match json with
          | Option.none => (⟨[], some "OSV lookup failed: network error"⟩, cache, true)
          | some vs? =>
            let vulns := vs?.getD []
            (⟨vulns, Option.none⟩, cacheInsert cache (cacheKey pkg) vulns, true))
      | FetchOutcome.timeout =>
        (⟨[], some "OSV lookup failed: request timed out"⟩, cache, true)
      | FetchOutcome.netError =>
        (⟨[], some "OSV lookup failed: network error"⟩, cache, true)

/-- `key:value` pairs of a CVSS vector (later duplicates overwrite earlier
ones, so lookups read the reversed list). -/
def vectorMetrics (vector : String) : List (String × String) :=
  (splitOnChar '/' vector.toList).filterMap (fun part =>
    match splitOnChar ':' part with
    | key :: val :: _ =>
      if key ≠ [] ∧ val ≠ [] then some (String.mk key, String.mk val) else Option.none
    | _ => Option.none)

/-- Last-write-wins lookup into the metrics. -/
def metricsGet (ms : List (String × String)) (k : String) : Option String :=
  ms.reverse.lookup k

/-- `impactValues[... ?? "N"] ?? 0`. -/
def impactValue (v : Option String) : ℚ :=
  match v with
  | some "N" => 0
  | some "L" => 1
  | some "H" => 2
  | some _ => 0
  | Option.none => 0

/-- `approximateScoreFromVector`. -/
def approximateScoreFromVector (vector : String) : ℚ :=
  let metrics := vectorMetrics vector
  let ci := impactValue (match metricsGet metrics "VC" with
    | some v => some v
    | Option.none => metricsGet metrics "C")
  let ii := impactValue (match metricsGet metrics "VI" with
    | some v => some v
    | Option.none => metricsGet metrics "I")
  let ai := impactValue (match metricsGet metrics "VA" with
    | some v => some v
    | Option.none => metricsGet metrics "A")
  let maxImpact := max ci (max ii ai)
  let acLow := (metricsGet metrics "AC").getD "H" = "L"
  let prNone := (metricsGet metrics "PR").getD "H" = "N"
  if maxImpact = 0 then 0
  else
    min ((if maxImpact = 2 then (7 : ℚ) else 4) + (if acLow then 1 else 0) +
      (if prNone then 1 else 0) + (if metricsGet metrics "S" = some "C" then 1/2 else 0)) 10

/-- Digit-run value. -/
def digitsVal (l : List Char) : Nat :=
  l.foldl (fun acc c => acc * 10 + (c.toNat - 48)) 0

/-- Models `parseFloat` on the score strings: optional sign, then a decimal
literal prefix (`NaN` = `none`; exponent forms do not occur in CVSS scores). -/
def parseDecimalQ (s : String) : Option ℚ :=
  let l := s.toList.dropWhile isSpaceJS
  let signedTail := match l with
    | '-' :: t => ((-1 : ℚ), t)
    | '+' :: t => ((1 : ℚ), t)
    | _ => ((1 : ℚ), l)
  let intPart := signedTail.2.takeWhile Char.isDigit
  let fracPart := match signedTail.2.drop intPart.length with
    | '.' :: t => t.takeWhile Char.isDigit
    | _ => []
  if intPart = [] ∧ fracPart = [] then Option.none
  else
    some (signedTail.1 *
      ((digitsVal intPart : ℚ) + (digitsVal fracPart : ℚ) / ((10 : ℚ) ^ fracPart.length)))

/-- `getCvssScore`. -/
def getCvssScore (vuln : OsvVuln) : Option ℚ :=
  match vuln.severity.find? (fun s => s.1 == "CVSS_V3" || s.1 == "CVSS_V2") with
  | Option.none => Option.none
  | some cvss =>
    match parseDecimalQ cvss.2 with
    | some numeric =>
      if 0 ≤ numeric ∧ numeric ≤ 10 then some numeric
      else if strStartsWith cvss.2 "CVSS:" then some (approximateScoreFromVector cvss.2)
      else Option.none
    | Option.none =>
      if strStartsWith cvss.2 "CVSS:" then some (approximateScoreFromVector cvss.2)
      else Option.none

/-- `cvssToSeverity`. -/
def cvssToSeverity (score : Option ℚ) : RiskLevel :=
  match score with
  | Option.none => RiskLevel.medium
  | some s =>
    if 9 ≤ s then RiskLevel.critical
    else if 7 ≤ s then RiskLevel.high
    else if 4 ≤ s then RiskLevel.medium
    else RiskLevel.low

/-- JS `score.toFixed(1)` for the non-negative scores that occur. -/
def qToFixed1 (q : ℚ) : String :=
  let n := (round (q * 10) : ℤ).toNat
  toString (n / 10) ++ "." ++ toString (n % 10)

/-- The error-finding suffix. -/
def errSuffix : String := "; vulnerability status unknown"

/-- The result-processing step of the package-vuln `analyze` loop: one medium
finding per errored lookup, nothing for an empty vulnerability list, otherwise
one finding at the CVSS-mapped severity. -/
def pkgFinding (pkg : PackageInfo) (res : OsvResult) : List Finding :=
  match res.error with
  | some e =>
    [⟨"package-vulnerability", RiskLevel.medium,
      "`" ++ pkg.name ++ "@" ++ pkg.version.getD "null" ++ "` — " ++ e ++ errSuffix⟩]
  | Option.none =>
    if res.vulns = [] then []
    else
      let highestScore := res.vulns.foldl (fun acc vuln =>
        match getCvssScore vuln, acc with
        | some s, some a => if a < s then some s else some a
        | some s, Option.none => some s
        | Option.none, a => a) Option.none
      let cveIds := (res.vulns.filter (fun v =>
        strStartsWith v.id "CVE-" ∨ strStartsWith v.id "GHSA-")).map (fun v => v.id)
      let scoreText := match highestScore with
        | some s => " (CVSS " ++ qToFixed1 s ++ ")"
        | Option.none => ""
      let cveText :=
        if cveIds ≠ [] then
          " including " ++ joinSep ", " (cveIds.take 3) ++
            (if 3 < cveIds.length then " and " ++ toString (cveIds.length - 3) ++ " more"
             else "")
        else ""
      [⟨"package-vulnerability", cvssToSeverity highestScore,
        "`" ++ pkg.name ++ "@" ++ pkg.version.getD "null" ++ "` has " ++
          toString res.vulns.length ++ " known vulnerabilit" ++
          (if res.vulns.length = 1 then "y" else "ies") ++ cveText ++ scoreText⟩]

/-- The pure face of `queryOsv` seen by `analyze`: a version-less package is
answered `{vulns: []}` with no oracle interaction; otherwise the abstracted
oracle (cache hit or network outcome) supplies the per-query result. -/
def queryOsvPure (oracle : PackageInfo → OsvResult) (pkg : PackageInfo) : OsvResult :=
  match pkg.version with
  | Option.none => ⟨[], Option.none⟩
  | some _ => oracle pkg

/-- `createPackageVulnAnalyzer(timeout).analyze` with the oracle I/O
abstracted: extract packages, query each, emit findings in order; the TS
`partial` field is present (possibly false) whenever packages were extracted,
and absent otherwise. -/
def packageVulnAnalyze (oracle : PackageInfo → OsvResult) (parsed : List ParsedCommand) :
    AnalyzerResult :=
  let packages := extractPackages parsed
  if packages = [] then { findings := [] }
  else
    let results := packages.map (fun pkg => (pkg, queryOsvPure oracle pkg))
    { findings := results.flatMap (fun pr => pkgFinding pr.1 pr.2)
      degradedFlag := some (results.any (fun pr => pr.2.error.isSome)) }

theorem strEndsWith_append_of (a x m : String) (h : strEndsWith x m = true) :
    strEndsWith (a ++ x) m = true := by
  unfold strEndsWith at h ⊢
  rw [List.isSuffixOf_iff_suffix] at h ⊢
  have hx : (a ++ x).toList = a.toList ++ x.toList := by
    show (a ++ x).data = a.data ++ x.data
    exact String.data_append a x
  rw [hx]
  exact h.trans (List.suffix_append a.toList x.toList)

theorem lookup_drop_one_none (l : OsvCache) (k : String)
    (h : l.lookup k = Option.none) : (l.drop 1).lookup k = Option.none := by
  cases l with
  | nil => simp
  | cons p t =>
    obtain ⟨k1, v1⟩ := p
    rw [List.drop_one, List.tail_cons]
    rw [List.lookup] at h
    cases hkp : (k == k1) with
    | true => rw [hkp] at h; cases h
    | false => rw [hkp] at h; exact h

theorem lookup_append_right (l1 l2 : OsvCache) (k : String)
    (h : l1.lookup k = Option.none) : (l1 ++ l2).lookup k = l2.lookup k := by
  induction l1 with
  | nil => simp
  | cons p t ih =>
    obtain ⟨k1, v1⟩ := p
    rw [List.cons_append, List.lookup]
    rw [List.lookup] at h
    cases hkp : (k == k1) with
    | true => rw [hkp] at h; cases h
    | false =>
      rw [hkp] at h
      simpa using ih h

/-! ## Scorer (`scorer.ts`) -/

/-- One step of the `maxLevel` loop at the top of `determineRiskLevel`:
`if (severityIndex(f.severity) > severityIndex(maxLevel)) maxLevel = f.severity`. -/
def sevStep (maxLevel : RiskLevel) (f : Finding) : RiskLevel :=
  if severityIndex maxLevel < severityIndex f.severity then f.severity else maxLevel

/-- The `maxLevel` fold at the top of `determineRiskLevel`:
severity of the highest individual finding. -/
def maxSeverity (findings : List Finding) : RiskLevel :=
  findings.foldl sevStep RiskLevel.none

/-- The `dangerousCombos` list from `determineRiskLevel` in `scorer.ts`. -/
def dangerousCombos : List (String × String) :=
  [("permissions", "network"), ("permissions", "sensitive-path"), ("network", "sensitive-path")]

/-- `determineRiskLevel` from `scorer.ts`. -/
def determineRiskLevel (findings : List Finding) : RiskLevel :=
  let maxLevel := maxSeverity findings
  let criticalCount := (findings.filter (fun f => f.severity = RiskLevel.critical)).length
  let highCount := (findings.filter (fun f => f.severity = RiskLevel.high)).length
  let mediumCount := (findings.filter (fun f => f.severity = RiskLevel.medium)).length
  let categories := findings.map (fun f => f.category)
  if 1 ≤ criticalCount then RiskLevel.critical
  else if 2 ≤ highCount then RiskLevel.critical
  else if 1 ≤ highCount ∧ 1 ≤ mediumCount ∧
      dangerousCombos.any (fun p => categories.contains p.1 && categories.contains p.2) = true then
    RiskLevel.critical
  else if 3 ≤ mediumCount then RiskLevel.high
  else maxLevel

/-- `scoreRisk` from `scorer.ts`. The TS spread `...(partial && { partial })`
puts the field in the output record only when the boolean is true, which the
embedding renders as `if degraded then some true else none`. -/
def scoreRisk (results : List AnalyzerResult)
    (actionPolicy : ActionPolicy := DEFAULT_ACTION_POLICY) : RiskAssessment :=
  let allFindings := results.flatMap (fun r => r.findings)
  let degraded := results.any (fun r => r.degradedFlag.getD false)
  if allFindings.isEmpty then
    { risk_level := RiskLevel.none
      action := actionPolicy.onNone
      details := []
      degradedFlag := if degraded then some true else Option.none }
  else
    let riskLevel := determineRiskLevel allFindings
    { risk_level := riskLevel
      action := policyAt actionPolicy riskLevel
      details := allFindings.map (fun f =>
        { category := f.category, severity := f.severity, description := f.description })
      degradedFlag := if degraded then some true else Option.none }

/-- The risk-level computation as worded by claim C2, for comparison with the
implementation: counts `C`, `H`, `M`, the three dangerous category pairs over
the set of all finding categories, and the final fallback to the maximum
individual severity. -/
def determineRiskLevelClaim (findings : List Finding) : RiskLevel :=
  let cCount := findings.countP (fun f => f.severity = RiskLevel.critical)
  let hCount := findings.countP (fun f => f.severity = RiskLevel.high)
  let mCount := findings.countP (fun f => f.severity = RiskLevel.medium)
  let hasCat : String → Prop := fun c => ∃ f ∈ findings, f.category = c
  have : DecidablePred hasCat := fun c => by unfold hasCat; infer_instance
  if 1 ≤ cCount then RiskLevel.critical
  else if 2 ≤ hCount then RiskLevel.critical
  else if 1 ≤ hCount ∧ 1 ≤ mCount ∧
      ((hasCat "permissions" ∧ hasCat "network") ∨
       (hasCat "permissions" ∧ hasCat "sensitive-path") ∨
       (hasCat "network" ∧ hasCat "sensitive-path")) then RiskLevel.critical
  else if 3 ≤ mCount then RiskLevel.high
  else maxSeverity findings

theorem contains_map_category (findings : List Finding) (c : String) :
    ((findings.map (fun f => f.category)).contains c) = true ↔ ∃ f ∈ findings, f.category = c := by
  simp [List.contains_iff_exists_mem_beq, List.mem_map]

/-- C2: `determineRiskLevel` computes exactly the level described by the
claim: critical when `C ≥ 1`, else critical when `H ≥ 2`, else critical when
`H ≥ 1`, `M ≥ 1` and the finding categories contain one of the dangerous pairs
{permissions, network}, {permissions, sensitive-path}, {network, sensitive-path},
else high when `M ≥ 3`, else the maximum individual severity. -/
theorem claim_C2_risk_level_formula (findings : List Finding) :
    determineRiskLevel findings = determineRiskLevelClaim findings := by
  unfold determineRiskLevel determineRiskLevelClaim
  simp only [List.countP_eq_length_filter, dangerousCombos, List.any_cons, List.any_nil,
    Bool.or_false, Bool.or_eq_true, Bool.and_eq_true, contains_map_category]

theorem severityIndex_le_four (l : RiskLevel) : severityIndex l ≤ 4 := by
  cases l <;> simp [severityIndex]

theorem foldl_sevStep_ge_init (l : List Finding) (init : RiskLevel) :
    severityIndex init ≤ severityIndex (l.foldl sevStep init) := by
  induction l generalizing init with
  | nil => simp
  | cons x xs ih =>
    simp only [List.foldl_cons, sevStep]
    by_cases hx : severityIndex init < severityIndex x.severity
    · simp only [if_pos hx]
      exact le_trans (le_of_lt hx) (ih x.severity)
    · simp only [if_neg hx]
      exact ih init

theorem foldl_sevStep_ge_mem (l : List Finding) (init : RiskLevel) (f : Finding)
    (h : f ∈ l) : severityIndex f.severity ≤ severityIndex (l.foldl sevStep init) := by
  induction l generalizing init with
  | nil => cases h
  | cons x xs ih =>
    simp only [List.foldl_cons]
    rcases List.mem_cons.mp h with hf | hf
    · subst hf
      refine le_trans ?_ (foldl_sevStep_ge_init xs (sevStep init f))
      unfold sevStep
      by_cases hx : severityIndex init < severityIndex f.severity
      · simp [hx]
      · simp only [if_neg hx]
        omega
    · exact ih _ hf

theorem maxSeverity_ge (findings : List Finding) (f : Finding) (h : f ∈ findings) :
    severityIndex f.severity ≤ severityIndex (maxSeverity findings) :=
  foldl_sevStep_ge_mem findings RiskLevel.none f h

/-- C6: the risk level returned by the scorer dominates the severity of every
individual finding, in the total order none < low < medium < high < critical
(rendered through `severityIndex`). -/
theorem claim_C6_severity_dominance (findings : List Finding) (f : Finding)
    (h : f ∈ findings) :
    severityIndex f.severity ≤ severityIndex (determineRiskLevel findings) := by
  unfold determineRiskLevel
  dsimp only
  split_ifs with h1 h2 h3 h4
  · simpa [severityIndex] using severityIndex_le_four f.severity
  · simpa [severityIndex] using severityIndex_le_four f.severity
  · simpa [severityIndex] using severityIndex_le_four f.severity
  · -- the `M ≥ 3 → high` branch: no critical finding exists here
    have hnc : f.severity ≠ RiskLevel.critical := by
      intro hc
      have hmem : f ∈ findings.filter (fun g => g.severity = RiskLevel.critical) := by
        simp [List.mem_filter, h, hc]
      have hpos := List.length_pos.mpr (List.ne_nil_of_mem hmem)
      omega
    have hle : severityIndex f.severity ≤ 3 := by
      cases hs : f.severity
      · simp [severityIndex]
      · simp [severityIndex]
      · simp [severityIndex]
      · simp [severityIndex]
      · exact absurd hs hnc
    simpa [severityIndex] using hle
  · exact maxSeverity_ge findings f h

/-- C6 witness: the dominance theorem applied at a concrete finding list. -/
theorem claim_C6_severity_dominance_witness :
    severityIndex (Finding.mk "destructive" RiskLevel.medium "x").severity ≤
      severityIndex (determineRiskLevel [Finding.mk "destructive" RiskLevel.medium "x"]) :=
  claim_C6_severity_dominance _ _ (by simp)

/-- C4: the `partial` output field (modelled as `degradedFlag`) is `some true`
iff some analyzer result carries `partial = true`, and is otherwise absent;
the package-vuln analyzer sets `partial = true` exactly when some oracle
lookup errored (version-less packages never query and never error), and the
field is absent when no package was extracted; each errored lookup contributes
one medium package-vulnerability finding whose description ends with
"vulnerability status unknown". -/
theorem claim_C4_partial_propagation :
    (∀ (results : List AnalyzerResult) (policy : ActionPolicy),
      ((scoreRisk results policy).degradedFlag = some true ↔
        results.any (fun r => r.degradedFlag.getD false) = true) ∧
      ((scoreRisk results policy).degradedFlag = some true ∨
        (scoreRisk results policy).degradedFlag = Option.none)) ∧
    (∀ (oracle : PackageInfo → OsvResult) (parsed : List ParsedCommand),
      ((packageVulnAnalyze oracle parsed).degradedFlag = some true ↔
        (extractPackages parsed).any
          (fun pkg => (queryOsvPure oracle pkg).error.isSome) = true) ∧
      (extractPackages parsed = [] →
        (packageVulnAnalyze oracle parsed).degradedFlag = Option.none)) ∧
    (∀ (oracle : PackageInfo → OsvResult) (parsed : List ParsedCommand)
      (pkg : PackageInfo), pkg ∈ extractPackages parsed →
      (queryOsvPure oracle pkg).error.isSome = true →
      ∃ f ∈ (packageVulnAnalyze oracle parsed).findings,
        f.severity = RiskLevel.medium ∧ f.category = "package-vulnerability" ∧
        strEndsWith f.description "vulnerability status unknown" = true) := by
  refine ⟨fun results policy => ⟨?_, ?_⟩, fun oracle parsed => ⟨?_, ?_⟩,
    fun oracle parsed pkg hmem herr => ?_⟩
  · unfold scoreRisk
    dsimp only
    by_cases hd : results.any (fun r => r.degradedFlag.getD false) = true
    · split_ifs <;> simp [hd]
    · split_ifs <;> simp_all
  · unfold scoreRisk
    dsimp only
    by_cases hd : results.any (fun r => r.degradedFlag.getD false) = true
    · split_ifs <;> simp [hd]
    · split_ifs <;> simp_all
  · unfold packageVulnAnalyze
    dsimp only
    by_cases hp : extractPackages parsed = []
    · simp [hp]
    · rw [if_neg hp]
      simp [List.any_map, Function.comp]
  · intro hp
    simp [packageVulnAnalyze, hp]
  · unfold packageVulnAnalyze
    dsimp only
    have hne : extractPackages parsed ≠ [] := by
      intro h
      rw [h] at hmem
      cases hmem
    rw [if_neg hne]
    dsimp only
    obtain ⟨e, he⟩ := Option.isSome_iff_exists.mp herr
    refine ⟨⟨"package-vulnerability", RiskLevel.medium,
      "`" ++ pkg.name ++ "@" ++ pkg.version.getD "null" ++ "` — " ++ e ++ errSuffix⟩,
      ?_, rfl, rfl, ?_⟩
    · rw [List.mem_flatMap]
      refine ⟨(pkg, queryOsvPure oracle pkg), List.mem_map_of_mem _ hmem, ?_⟩
      simp [pkgFinding, he]
    · exact strEndsWith_append_of _ errSuffix "vulnerability status unknown" (by decide)

/-- C4 witness: a timed-out lookup for `npm install leftpad@1.0.0` produces
the medium "status unknown" finding. -/
theorem claim_C4_partial_propagation_witness :
    ∃ f ∈ (packageVulnAnalyze (fun _ => ⟨[], some "OSV lookup failed: request timed out"⟩)
        [⟨"npm", ["install", "leftpad@1.0.0"], Option.none, [],
          "npm install leftpad@1.0.0", 0⟩]).findings,
      f.severity = RiskLevel.medium ∧ f.category = "package-vulnerability" ∧
      strEndsWith f.description "vulnerability status unknown" = true :=
  claim_C4_partial_propagation.2.2
    (fun _ => ⟨[], some "OSV lookup failed: request timed out"⟩)
    [⟨"npm", ["install", "leftpad@1.0.0"], Option.none, [], "npm install leftpad@1.0.0", 0⟩]
    ⟨"leftpad", some "1.0.0", "npm"⟩ (by decide) (by decide)

/-- C8: the oracle cache never exceeds 500 entries; a successful fetch stores
its vulnerability list under `ecosystem:name@version`; a query whose key is
cached returns the stored list with no network call and no cache change; and
an insert at capacity evicts the entry whose insertion is oldest (the head). -/
theorem claim_C8_cache_bounded_fifo :
    (∀ (pkg : PackageInfo) (cache : OsvCache) (outcome : FetchOutcome),
      cache.length ≤ OSV_CACHE_MAX →
      ((queryOsv pkg cache outcome).2.1).length ≤ OSV_CACHE_MAX) ∧
    (∀ (pkg : PackageInfo) (cache : OsvCache) (status : Nat)
      (vs? : Option (List OsvVuln)), pkg.version.isSome = true →
      cache.lookup (cacheKey pkg) = Option.none → 200 ≤ status → status ≤ 299 →
      ((queryOsv pkg cache (FetchOutcome.response status (some vs?))).2.1).lookup
        (cacheKey pkg) = some (vs?.getD [])) ∧
    (∀ (pkg : PackageInfo) (cache : OsvCache) (outcome : FetchOutcome)
      (vs : List OsvVuln), pkg.version.isSome = true →
      cache.lookup (cacheKey pkg) = some vs →
      queryOsv pkg cache outcome = (⟨vs, Option.none⟩, cache, false)) ∧
    (∀ (pkg : PackageInfo) (cache : OsvCache) (status : Nat)
      (vs? : Option (List OsvVuln)), pkg.version.isSome = true →
      cache.lookup (cacheKey pkg) = Option.none → 200 ≤ status → status ≤ 299 →
      cache.length = OSV_CACHE_MAX →
      (queryOsv pkg cache (FetchOutcome.response status (some vs?))).2.1 =
        cache.tail ++ [(cacheKey pkg, vs?.getD [])]) := by
  have hok : ∀ status : Nat, 200 ≤ status → status ≤ 299 →
      ¬¬(200 ≤ status ∧ status ≤ 299) := by
    intro status h1 h2 h
    exact h ⟨h1, h2⟩
  refine ⟨fun pkg cache outcome hlen => ?_, fun pkg cache status vs? hv hlk h1 h2 => ?_,
    fun pkg cache outcome vs hv hlk => ?_, fun pkg cache status vs? hv hlk h1 h2 hcap => ?_⟩
  · obtain hv | ⟨v, hv⟩ := Option.eq_none_or_eq_some pkg.version
    · simp [queryOsv, hv, hlen]
    · cases hlk : cache.lookup (cacheKey pkg) with
      | some vs => simp [queryOsv, hv, hlk, hlen]
      | none =>
        cases outcome with
        | response status json =>
          by_cases hs : 200 ≤ status ∧ status ≤ 299
          · cases json with
            | none => simp [queryOsv, hv, hlk, hs, hlen]
            | some vs? =>
              simp only [queryOsv, hv, hlk]
              rw [if_neg (not_not_intro hs)]
              dsimp only
              unfold cacheInsert
              unfold OSV_CACHE_MAX at hlen ⊢
              split_ifs with hc
              · simp only [List.length_append, List.length_drop, List.length_cons,
                  List.length_nil]
                omega
              · simp only [List.length_append, List.length_cons, List.length_nil]
                omega
          · simp [queryOsv, hv, hlk, hs, hlen]
        | timeout => simp [queryOsv, hv, hlk, hlen]
        | netError => simp [queryOsv, hv, hlk, hlen]
  · obtain ⟨v, hvv⟩ := Option.isSome_iff_exists.mp hv
    simp only [queryOsv, hvv, hlk, if_neg (hok status h1 h2)]
    unfold cacheInsert
    rw [lookup_append_right]
    · simp [List.lookup]
    · split_ifs with hc
      · exact lookup_drop_one_none cache (cacheKey pkg) hlk
      · exact hlk
  · obtain ⟨v, hvv⟩ := Option.isSome_iff_exists.mp hv
    simp [queryOsv, hvv, hlk]
  · obtain ⟨v, hvv⟩ := Option.isSome_iff_exists.mp hv
    simp only [queryOsv, hvv, hlk, if_neg (hok status h1 h2)]
    unfold cacheInsert
    rw [if_pos (le_of_eq hcap.symm), List.drop_one]

set_option maxRecDepth 40000 in
/-- C8 witness: a fresh store on an empty cache, a hit on the stored key, and
an eviction of the head at capacity. -/
theorem claim_C8_cache_bounded_fifo_witness :
    (((queryOsv ⟨"a", some "1", "npm"⟩ []
        (FetchOutcome.response 200 (some (some [])))).2.1).lookup
      (cacheKey ⟨"a", some "1", "npm"⟩) = some []) ∧
    (queryOsv ⟨"a", some "1", "npm"⟩ [("npm:a@1", [])] FetchOutcome.timeout =
      (⟨[], Option.none⟩, [("npm:a@1", [])], false)) ∧
    ((queryOsv ⟨"a", some "1", "npm"⟩ (List.replicate 500 ("x", []))
        (FetchOutcome.response 200 (some (some [])))).2.1 =
      (List.replicate 500 ("x", ([] : List OsvVuln))).tail ++ [("npm:a@1", [])]) :=
  ⟨claim_C8_cache_bounded_fifo.2.1 ⟨"a", some "1", "npm"⟩ [] 200 (some []) (by decide)
      (by decide) (by decide) (by decide),
   claim_C8_cache_bounded_fifo.2.2.1 ⟨"a", some "1", "npm"⟩ [("npm:a@1", [])]
      FetchOutcome.timeout [] (by decide) (by decide),
   claim_C8_cache_bounded_fifo.2.2.2 ⟨"a", some "1", "npm"⟩ (List.replicate 500 ("x", []))
      200 (some []) (by decide) (by decide) (by decide) (by decide) (by decide)⟩

/-- C9: a failed lookup (HTTP error, JSON failure, timeout or network error)
never stores anything — the cache is unchanged — and a subsequent query for
the same key consults the network again rather than returning a cached error. -/
theorem claim_C9_errors_not_cached :
    (∀ (pkg : PackageInfo) (cache : OsvCache) (outcome : FetchOutcome),
      ((queryOsv pkg cache outcome).1.error.isSome = true) →
      (queryOsv pkg cache outcome).2.1 = cache) ∧
    (∀ (pkg : PackageInfo) (cache : OsvCache) (outcome outcome2 : FetchOutcome),
      pkg.version.isSome = true → cache.lookup (cacheKey pkg) = Option.none →
      ((queryOsv pkg cache outcome).1.error.isSome = true) →
      (queryOsv pkg ((queryOsv pkg cache outcome).2.1) outcome2).2.2 = true) := by
  have hmain : ∀ (pkg : PackageInfo) (cache : OsvCache) (outcome : FetchOutcome),
      ((queryOsv pkg cache outcome).1.error.isSome = true) →
      (queryOsv pkg cache outcome).2.1 = cache := by
    intro pkg cache outcome herr
    obtain hv | ⟨v, hv⟩ := Option.eq_none_or_eq_some pkg.version
    · simp [queryOsv, hv]
    · cases hlk : cache.lookup (cacheKey pkg) with
      | some vs => simp [queryOsv, hv, hlk]
      | none =>
        cases outcome with
        | response status json =>
          by_cases hs : 200 ≤ status ∧ status ≤ 299
          · cases json with
            | none => simp [queryOsv, hv, hlk, hs]
            | some vs? => simp [queryOsv, hv, hlk, hs] at herr
          · simp [queryOsv, hv, hlk, hs]
        | timeout => simp [queryOsv, hv, hlk]
        | netError => simp [queryOsv, hv, hlk]
  refine ⟨hmain, fun pkg cache outcome outcome2 hv hlk herr => ?_⟩
  rw [hmain pkg cache outcome herr]
  obtain ⟨v, hvv⟩ := Option.isSome_iff_exists.mp hv
  cases outcome2 with
  | response status json =>
    by_cases hs : 200 ≤ status ∧ status ≤ 299
    · cases json with
      | none => simp [queryOsv, hvv, hlk, hs]
      | some vs? => simp [queryOsv, hvv, hlk, hs]
    · simp [queryOsv, hvv, hlk, hs]
  | timeout => simp [queryOsv, hvv, hlk]
  | netError => simp [queryOsv, hvv, hlk]

/-- C9 witness: after a timeout the cache is unchanged and a retry hits the
network again. -/
theorem claim_C9_errors_not_cached_witness :
    ((queryOsv ⟨"a", some "1", "npm"⟩ [] FetchOutcome.timeout).2.1 = []) ∧
    ((queryOsv ⟨"a", some "1", "npm"⟩
        ((queryOsv ⟨"a", some "1", "npm"⟩ [] FetchOutcome.timeout).2.1)
        FetchOutcome.timeout).2.2 = true) :=
  ⟨claim_C9_errors_not_cached.1 ⟨"a", some "1", "npm"⟩ [] FetchOutcome.timeout (by decide),
   claim_C9_errors_not_cached.2 ⟨"a", some "1", "npm"⟩ [] FetchOutcome.timeout
     FetchOutcome.timeout (by decide) (by decide) (by decide)⟩

/-! ## C10: no analyzer ever emits a `none`-severity finding -/

theorem mem_ite_or {c : Prop} [Decidable c] {l1 l2 : List Finding} {f : Finding}
    (h : f ∈ (if c then l1 else l2)) : f ∈ l1 ∨ f ∈ l2 := by
  split at h
  · exact Or.inl h
  · exact Or.inr h

theorem sev_ite_ne_none {c : Prop} [Decidable c] {a b : RiskLevel}
    (ha : a ≠ RiskLevel.none) (hb : b ≠ RiskLevel.none) :
    (if c then a else b) ≠ RiskLevel.none := by
  split
  · exact ha
  · exact hb

theorem sev_of_mem_singleton {f g : Finding} (h : f ∈ [g])
    (hg : g.severity ≠ RiskLevel.none) : f.severity ≠ RiskLevel.none := by
  simp only [List.mem_singleton] at h
  subst h
  exact hg

theorem rmFindings_sev (cmd : ParsedCommand) (f : Finding) (h : f ∈ rmFindings cmd) :
    f.severity ≠ RiskLevel.none := by
  unfold rmFindings at h
  rcases mem_ite_or h with h | h
  · rcases mem_ite_or h with h | h
    · rcases mem_ite_or h with h | h
      · exact sev_of_mem_singleton h (by simp)
      · rcases mem_ite_or h with h | h
        · exact sev_of_mem_singleton h (by simp)
        · rcases mem_ite_or h with h | h
          · exact sev_of_mem_singleton h (by simp)
          · exact sev_of_mem_singleton h (by simp)
    · rcases mem_ite_or h with h | h
      · exact sev_of_mem_singleton h (by simp)
      · cases h
  · cases h

theorem verbDestructiveFindings_sev (cmd : ParsedCommand) (f : Finding)
    (h : f ∈ verbDestructiveFindings cmd) : f.severity ≠ RiskLevel.none := by
  unfold verbDestructiveFindings at h
  simp only [List.mem_append] at h
  rcases h with ((h | h) | h) | h
  · rcases mem_ite_or h with h | h
    · exact sev_of_mem_singleton h (by simp)
    · cases h
  · rcases mem_ite_or h with h | h
    · exact sev_of_mem_singleton h (by simp)
    · cases h
  · rcases mem_ite_or h with h | h
    · exact sev_of_mem_singleton h (by simp)
    · cases h
  · rcases mem_ite_or h with h | h
    · rcases mem_ite_or h with h | h
      · exact sev_of_mem_singleton h (by simp)
      · exact sev_of_mem_singleton h (by simp)
    · cases h

theorem gitFindings_sev (cmd : ParsedCommand) (f : Finding) (h : f ∈ gitFindings cmd) :
    f.severity ≠ RiskLevel.none := by
  unfold gitFindings at h
  rcases mem_ite_or h with h | h
  · try dsimp only at h
    split at h
    · rcases mem_ite_or h with h | h
      · exact sev_of_mem_singleton h (sev_ite_ne_none (by simp) (by simp))
      · exact sev_of_mem_singleton h (by simp)
    · cases h
  · cases h

theorem sqlFindings_sev (cmd : ParsedCommand) (f : Finding) (h : f ∈ sqlFindings cmd) :
    f.severity ≠ RiskLevel.none := by
  unfold sqlFindings at h
  rcases mem_ite_or h with h | h
  · exact sev_of_mem_singleton h (by simp)
  · cases h

theorem destructiveAnalyze_sev (parsed : List ParsedCommand) (f : Finding)
    (h : f ∈ (destructiveAnalyze parsed).findings) : f.severity ≠ RiskLevel.none := by
  obtain ⟨cmd, _, h⟩ := List.mem_flatMap.mp h
  unfold destructiveSegFindings at h
  simp only [List.mem_append] at h
  rcases h with ((h | h) | h) | h
  · exact rmFindings_sev cmd f h
  · exact verbDestructiveFindings_sev cmd f h
  · exact gitFindings_sev cmd f h
  · exact sqlFindings_sev cmd f h

theorem permissionsAnalyze_sev (parsed : List ParsedCommand) (f : Finding)
    (h : f ∈ (permissionsAnalyze parsed).findings) : f.severity ≠ RiskLevel.none := by
  obtain ⟨cmd, _, h⟩ := List.mem_flatMap.mp h
  unfold permissionsSegFindings at h
  simp only [List.mem_append] at h
  rcases h with (h | h) | h
  · unfold sudoFindings at h
    rcases mem_ite_or h with h | h
    · rcases mem_ite_or h with h | h
      · exact sev_of_mem_singleton h (by simp)
      · exact sev_of_mem_singleton h (by simp)
    · cases h
  · unfold chmodFindings at h
    rcases mem_ite_or h with h | h
    · rcases mem_ite_or h with h | h
      · exact sev_of_mem_singleton h (by simp)
      · rcases mem_ite_or h with h | h
        · exact sev_of_mem_singleton h (by simp)
        · rcases mem_ite_or h with h | h
          · exact sev_of_mem_singleton h (by simp)
          · cases h
    · cases h
  · unfold chownFindings at h
    rcases mem_ite_or h with h | h
    · exact sev_of_mem_singleton h (sev_ite_ne_none (by simp) (by simp))
    · cases h

theorem sensitivePathAnalyze_sev (parsed : List ParsedCommand) (f : Finding)
    (h : f ∈ (sensitivePathAnalyze parsed).findings) : f.severity ≠ RiskLevel.none := by
  obtain ⟨cmd, _, h⟩ := List.mem_flatMap.mp h
  unfold sensitivePathSegFindings at h
  obtain ⟨pw, _, h⟩ := List.mem_flatMap.mp h
  try dsimp only at h
  split at h
  · cases h
  · exact sev_of_mem_singleton h
      (sev_ite_ne_none (by simp)
        (sev_ite_ne_none (by simp)
          (sev_ite_ne_none (by simp) (sev_ite_ne_none (by simp) (by simp)))))

theorem netSegFindings_sev (safeHosts : List String) (prev : Option ParsedCommand)
    (cmd : ParsedCommand) (f : Finding) (h : f ∈ netSegFindings safeHosts prev cmd) :
    f.severity ≠ RiskLevel.none := by
  unfold netSegFindings at h
  rcases mem_ite_or h with h | h
  · rcases mem_ite_or h with h | h
    · exact sev_of_mem_singleton h (by simp)
    · exact sev_of_mem_singleton h (by simp)
  · rcases mem_ite_or h with h | h
    · cases h
    · rcases mem_ite_or h with h | h
      · try dsimp only at h
        split at h
        · exact sev_of_mem_singleton h (by simp)
        · cases h
      · try dsimp only at h
        rcases List.mem_append.mp h with h | h
        · rcases mem_ite_or h with h | h
          · try dsimp only at h
            split at h
            · rcases mem_ite_or h with h | h
              · exact sev_of_mem_singleton h (by simp)
              · cases h
            · cases h
          · cases h
        · rcases mem_ite_or h with h | h
          · rcases mem_ite_or h with h | h
            · exact sev_of_mem_singleton h (by simp)
            · exact sev_of_mem_singleton h (by simp)
          · rcases mem_ite_or h with h | h
            · exact sev_of_mem_singleton h (by simp)
            · rcases mem_ite_or h with h | h
              · exact sev_of_mem_singleton h (by simp)
              · cases h

theorem netLoop_sev (safeHosts : List String) (parsed : List ParsedCommand)
    (prev : Option ParsedCommand) (f : Finding) (h : f ∈ netLoop safeHosts prev parsed) :
    f.severity ≠ RiskLevel.none := by
  induction parsed generalizing prev with
  | nil => cases h
  | cons cmd rest ih =>
    rw [netLoop] at h
    rcases List.mem_append.mp h with h | h
    · exact netSegFindings_sev safeHosts prev cmd f h
    · exact ih (some cmd) h

theorem networkAnalyze_sev (safeHosts : List String) (parsed : List ParsedCommand)
    (f : Finding) (h : f ∈ (networkAnalyze safeHosts parsed).findings) :
    f.severity ≠ RiskLevel.none := by
  unfold networkAnalyze at h
  try dsimp only at h
  rcases List.mem_append.mp h with h | h
  · exact netLoop_sev safeHosts parsed Option.none f h
  · rcases mem_ite_or h with h | h
    · try dsimp only at h
      split at h
      · rcases mem_ite_or h with h | h
        · exact sev_of_mem_singleton h (by simp)
        · cases h
      · cases h
    · cases h

theorem codeInjectionAnalyze_sev (parsed : List ParsedCommand) (f : Finding)
    (h : f ∈ (codeInjectionAnalyze parsed).findings) : f.severity ≠ RiskLevel.none := by
  obtain ⟨cmd, _, h⟩ := List.mem_flatMap.mp h
  unfold codeInjectionSegFindings at h
  simp only [List.mem_append] at h
  rcases h with (((h | h) | h) | h) | h
  · unfold evalFindings at h
    rcases mem_ite_or h with h | h
    · rcases mem_ite_or h with h | h
      · exact sev_of_mem_singleton h (by simp)
      · rcases mem_ite_or h with h | h
        · exact sev_of_mem_singleton h (by simp)
        · exact sev_of_mem_singleton h (by simp)
    · cases h
  · unfold inlineFindings at h
    rcases mem_ite_or h with h | h
    · try dsimp only at h
      split at h
      · rcases mem_ite_or h with h | h
        · exact sev_of_mem_singleton h (by simp)
        · exact sev_of_mem_singleton h (by simp)
      · cases h
    · cases h
  · unfold sudoInlineFindings at h
    rcases mem_ite_or h with h | h
    · rcases mem_ite_or h with h | h
      · try dsimp only at h
        split at h
        · exact sev_of_mem_singleton h (by simp)
        · cases h
      · cases h
    · cases h
  · unfold pipeInterpFindings at h
    rcases mem_ite_or h with h | h
    · try dsimp only at h
      split at h
      · rcases mem_ite_or h with h | h
        · exact sev_of_mem_singleton h (by simp)
        · cases h
      · cases h
    · cases h
  · unfold dockerFindings at h
    rcases mem_ite_or h with h | h
    · rcases mem_ite_or h with h | h
      · simp only [List.mem_append] at h
        rcases h with (h | h) | h
        · rcases mem_ite_or h with h | h
          · exact sev_of_mem_singleton h (by simp)
          · cases h
        · rcases mem_ite_or h with h | h
          · exact sev_of_mem_singleton h (by simp)
          · cases h
        · rcases mem_ite_or h with h | h
          · exact sev_of_mem_singleton h (by simp)
          · cases h
      · cases h
    · cases h

theorem cvssToSeverity_ne_none (score : Option ℚ) :
    cvssToSeverity score ≠ RiskLevel.none := by
  unfold cvssToSeverity
  cases score
  · simp
  · exact sev_ite_ne_none (by simp)
      (sev_ite_ne_none (by simp) (sev_ite_ne_none (by simp) (by simp)))

theorem pkgFinding_sev (pkg : PackageInfo) (res : OsvResult) (f : Finding)
    (h : f ∈ pkgFinding pkg res) : f.severity ≠ RiskLevel.none := by
  unfold pkgFinding at h
  split at h
  · exact sev_of_mem_singleton h (by simp)
  · rcases mem_ite_or h with h | h
    · cases h
    · exact sev_of_mem_singleton h (cvssToSeverity_ne_none _)

theorem packageVulnAnalyze_sev (oracle : PackageInfo → OsvResult)
    (parsed : List ParsedCommand) (f : Finding)
    (h : f ∈ (packageVulnAnalyze oracle parsed).findings) :
    f.severity ≠ RiskLevel.none := by
  unfold packageVulnAnalyze at h
  try dsimp only at h
  rw [apply_ite (fun r : AnalyzerResult => r.findings)] at h
  try dsimp only at h
  rcases mem_ite_or h with h | h
  · cases h
  · obtain ⟨pr, _, h⟩ := List.mem_flatMap.mp h
    exact pkgFinding_sev pr.1 pr.2 f h

/-- C10: every finding emitted by any of the six analyzers has severity in
{low, medium, high, critical} — never `none` — and consequently a non-empty
findings list always scores at least `low`. -/
theorem claim_C10_no_none_severity :
    (∀ (parsed : List ParsedCommand) (f : Finding),
      f ∈ (destructiveAnalyze parsed).findings → f.severity ≠ RiskLevel.none) ∧
    (∀ (parsed : List ParsedCommand) (f : Finding),
      f ∈ (permissionsAnalyze parsed).findings → f.severity ≠ RiskLevel.none) ∧
    (∀ (parsed : List ParsedCommand) (f : Finding),
      f ∈ (sensitivePathAnalyze parsed).findings → f.severity ≠ RiskLevel.none) ∧
    (∀ (safeHosts : List String) (parsed : List ParsedCommand) (f : Finding),
      f ∈ (networkAnalyze safeHosts parsed).findings → f.severity ≠ RiskLevel.none) ∧
    (∀ (parsed : List ParsedCommand) (f : Finding),
      f ∈ (codeInjectionAnalyze parsed).findings → f.severity ≠ RiskLevel.none) ∧
    (∀ (oracle : PackageInfo → OsvResult) (parsed : List ParsedCommand) (f : Finding),
      f ∈ (packageVulnAnalyze oracle parsed).findings → f.severity ≠ RiskLevel.none) ∧
    (∀ findings : List Finding, findings ≠ [] →
      (∀ f ∈ findings, f.severity ≠ RiskLevel.none) →
      1 ≤ severityIndex (determineRiskLevel findings)) := by
  refine ⟨destructiveAnalyze_sev, permissionsAnalyze_sev, sensitivePathAnalyze_sev,
    networkAnalyze_sev, codeInjectionAnalyze_sev, packageVulnAnalyze_sev,
    fun findings hne hall => ?_⟩
  unfold determineRiskLevel
  dsimp only
  split_ifs with h1 h2 h3 h4
  · simp [severityIndex]
  · simp [severityIndex]
  · simp [severityIndex]
  · simp [severityIndex]
  · obtain ⟨g, hg⟩ := List.exists_mem_of_ne_nil findings hne
    have hmax := maxSeverity_ge findings g hg
    have hgs : 1 ≤ severityIndex g.severity := by
      cases hgt : g.severity
      · exact absurd hgt (hall g hg)
      · simp [severityIndex]
      · simp [severityIndex]
      · simp [severityIndex]
      · simp [severityIndex]
    omega

/-- C10 witness: a concrete destructive finding is non-`none` and a singleton
low finding scores at least low. -/
theorem claim_C10_no_none_severity_witness :
    ((Finding.mk "destructive" RiskLevel.critical
        "`rm -rf /` — irreversible deletion of all files on the system").severity ≠
      RiskLevel.none) ∧
    1 ≤ severityIndex (determineRiskLevel [Finding.mk "network" RiskLevel.low "x"]) :=
  ⟨claim_C10_no_none_severity.1
      [⟨"rm", ["-rf", "/"], Option.none, [], "rm -rf /", 0⟩] _ (by decide),
   claim_C10_no_none_severity.2.2.2.2.2.2 [Finding.mk "network" RiskLevel.low "x"]
     (by decide) (by decide)⟩

end Flare
